import Mathlib

/-!
# LocalTreasures frontend: the chat client

A shallow embedding of the message reconciliation code of
`src/pages/Chat/Chat.js`, of the chat reducer of
`src/store/slices/chatSlice.js`, of the emitting operations of
`src/services/socketService.js`, of `sendMessage` of
`src/services/chatService.js` and of the cart reducers of
`src/store/slices/cartSlice.js`, with theorems about the unread counters,
the optimistic-message protocol, the REST fallback timer, the typing
indicator, the conversation list and the cart totals.

Conventions of the embedding.

* A JavaScript object field that may be absent is an `Option`; `none` stands
  for `undefined`.
* Timestamps (`createdAt`) are the epoch milliseconds that `new Date(x)`
  denotes; `none` is an invalid date (`NaN`).
* `JSON.stringify` and `String(...)` are platform functions: they are taken
  as a parameter (`JsBuiltins`).
* React state setters are modelled by their updater functions; the page
  state is passed explicitly. A handler that React registers once is given
  the state values its closure holds as arguments.
* A function that throws returns `none`, or is given the place of the throw
  as an argument when the throw comes from code outside the page
  (`SendFault`).
* The numbers of the cart are any type with the operations the cart uses
  (`NumberOps`); nothing is assumed of the arithmetic.
-/

namespace LocalTreasures

/-! ## JavaScript values -/

/-- A JavaScript value as the chat page reads it. An object is given by its
identity `ref` (strict equality on objects is identity) and by the values of
its `text` and `content` properties, the only properties the page reads from
a message content (`undefined` when the property is absent). Numbers are the
integer-valued ones. -/
inductive JsVal where
  | undefined
  | null
  | bool (b : Bool)
  | num (n : Int)
  | str (s : String)
  | obj (ref : Nat) (text : JsVal) (content : JsVal)
  deriving DecidableEq, Repr

namespace JsVal

/-- The `typeof` operator. -/
def typeof : JsVal → String
  | undefined => "undefined"
  | null => "object"
  | bool _ => "boolean"
  | num _ => "number"
  | str _ => "string"
  | obj _ _ _ => "object"

/-- Truthiness, as used by `!v` and `a || b`. -/
def truthy : JsVal → Bool
  | undefined => false
  | null => false
  | bool b => b
  | num n => n != 0
  | str s => s != ""
  | obj _ _ _ => true

/-- The strict equality operator `===`. -/
def strictEq : JsVal → JsVal → Bool
  | undefined, undefined => true
  | null, null => true
  | bool a, bool b => a == b
  | num a, num b => a == b
  | str a, str b => a == b
  | obj r _ _, obj r' _ _ => r == r'
  | _, _ => false

/-- Whether the value is a string (`typeof v === 'string'`). -/
def isString : JsVal → Bool
  | str _ => true
  | _ => false

end JsVal

/-- The platform functions the page calls on a message content. -/
structure JsBuiltins where
  /-- The result of `JSON.stringify(v)` on an object. -/
  jsonStringify : JsVal → String
  /-- The result of `String(v)`, also the conversion of a template literal. -/
  toString : JsVal → String

/-- Truthiness of an optional string field (`undefined` and `''` are falsy). -/
def truthyStr : Option String → Bool
  | some s => s != ""
  | none => false

/-! ## Data model -/

/-- The `sender` field of a message: the id string, or the populated user
object. -/
inductive Sender where
  | ref (id : String)
  | populated (_id : Option String) (name : Option String)
  deriving DecidableEq, Repr

/-- Truthiness of the `sender` field. -/
def truthySender : Option Sender → Bool
  | some (Sender.ref s) => s != ""
  | some (Sender.populated _ _) => true
  | none => false

/-- Chat.js `getSenderId`: `typeof sender === 'object' ? sender._id : sender`. -/
def getSenderId : Option Sender → Option String
  | some (Sender.ref s) => some s
  | some (Sender.populated i _) => i
  | none => none

/-- A message: an inbound payload or an entry of the `messages` list.
`retry` records that a retry handle is attached. `createdAt` is the date
that the field denotes; `createdAtTruthy` is the truthiness of the field
itself, which differs from the validity of the date for the number `0`
(falsy, a valid date) and for a non-empty string that is not a date
(truthy, an invalid date). -/
structure Message where
  _id : Option String := none
  sender : Option Sender := none
  content : JsVal := JsVal.undefined
  tempId : Option String := none
  chatId : Option String := none
  createdAt : Option Int := none
  isOptimistic : Bool := false
  status : Option String := none
  retry : Bool := false
  readBy : Option (List String) := none
  createdAtTruthy : Bool := createdAt.isSome
  deriving DecidableEq, Repr

/-- The authenticated user (`state.auth.user`). -/
structure User where
  _id : String
  name : String
  deriving DecidableEq, Repr

/-- A populated user of a conversation participant; `businessName` is
`businessInfo?.businessName`. -/
structure ChatUser where
  _id : Option String := none
  name : Option String := none
  businessName : Option String := none
  deriving DecidableEq, Repr

/-- The `user` field of a participant: an id string or the populated user. -/
inductive ParticipantUser where
  | ref (id : String)
  | populated (u : ChatUser)
  deriving DecidableEq, Repr

/-- A participant of a conversation, `{ user, joinedAt, ... }`. -/
structure Participant where
  user : Option ParticipantUser := none
  deriving DecidableEq, Repr

/-- A conversation of the `conversations` list. `participants` is `none`
when the field is absent or is not an array; an entry of the array may be
null. -/
structure Conversation where
  _id : String
  lastMessage : Option Message := none
  unreadCount : Nat := 0
  updatedAt : Option Int := none
  participants : Option (List (Option Participant)) := none
  deriving DecidableEq, Repr

/-- The date read by the conversation sort: `conv.lastMessage?.createdAt`. -/
def lastCreatedAt (conv : Conversation) : Option Int :=
  match conv.lastMessage with
  | some m => m.createdAt
  | none => none

/-! ## Chat.js: `handleNewMessage` -/

/-- The validation guard of `handleNewMessage`: the payload is not null and
its `_id`, `sender` and `content` are truthy. -/
def isValidMessage : Option Message → Bool
  | none => false
  | some m => truthyStr m._id && truthySender m.sender && m.content.truthy

/-- Content normalisation of `handleNewMessage` and `selectChat`:
a string is kept; for an object `content.text || content.content ||
JSON.stringify(content)`; otherwise `String(content)`. The `null` case is
not reached (both callers drop a falsy content first; in JavaScript reading
`.text` of `null` throws). -/
def normalizeContent (B : JsBuiltins) : JsVal → JsVal
  | JsVal.str s => JsVal.str s
  | JsVal.obj r t c =>
      if t.truthy then t
      else if c.truthy then c
      else JsVal.str (B.jsonStringify (JsVal.obj r t c))
  | JsVal.null => JsVal.null
  | v => JsVal.str (B.toString v)

/-- The `normalizedMessage` of `handleNewMessage`. -/
def normalizeMessage (B : JsBuiltins) (m : Message) : Message :=
  { m with content := normalizeContent B m.content }

/-- The conversion of a value inside a template literal. -/
def templateVal (B : JsBuiltins) : JsVal → String
  | JsVal.str s => s
  | v => B.toString v

/-- The conversion of an optional string inside a template literal. -/
def templateStr : Option String → String
  | some s => s
  | none => "undefined"

/-- The correlation key of `handleNewMessage`:
`normalizedMessage.tempId || temp_<content>_<senderId>`. -/
def correlationId (B : JsBuiltins) (n : Message) : String :=
  if truthyStr n.tempId then templateStr n.tempId
  else "temp_" ++ templateVal B n.content ++ "_" ++ templateStr (getSenderId n.sender)

/-- The predicate of the first `findIndex` of `handleNewMessage`. -/
def matchesOptimistic (B : JsBuiltins) (n : Message) (msg : Message) : Bool :=
  msg._id == some (correlationId B n) ||
    (msg.isOptimistic && msg.content.strictEq n.content &&
      getSenderId msg.sender == getSenderId n.sender)

/-- The predicate of `messageExists` in `handleNewMessage`. -/
def sameServerId (n : Message) (msg : Message) : Bool :=
  msg._id == n._id || (truthyStr msg._id && msg._id == n._id)

/-- `Math.abs(new Date(a) - new Date(b)) < 5000`; false on an invalid date. -/
def withinWindow (a b : Option Int) : Bool :=
  match a, b with
  | some x, some y => decide (|x - y| < 5000)
  | _, _ => false

/-- The predicate of the second `findIndex` of `handleNewMessage` (own
messages only). -/
def matchesOwnOptimistic (n : Message) (msg : Message) : Bool :=
  msg.isOptimistic && msg.content.strictEq n.content &&
    withinWindow msg.createdAt n.createdAt

/-- The updater passed to `setMessages` by `handleNewMessage`, for a
normalised message `n`. -/
def reconcile (B : JsBuiltins) (user : User) (n : Message) (prev : List Message) :
    List Message :=
  match prev.findIdx? (matchesOptimistic B n) with
  | some i => prev.set i { n with status := some "delivered", isOptimistic := false }
  | none =>
    if prev.any (sameServerId n) then prev
    else
      let own : Bool := getSenderId n.sender == some user._id
      match (if own then prev.findIdx? (matchesOwnOptimistic n) else none) with
      | some j => prev.set j { n with status := some "delivered" }
      | none => prev ++ [{ n with status := some (if own then "delivered" else "received") }]

/-- The effect of `handleNewMessage` on the `messages` list: an invalid
payload is skipped, a valid one is normalised and reconciled. -/
def handleNewMessageMessages (B : JsBuiltins) (user : User) (prev : List Message)
    (message : Option Message) : List Message :=
  match message with
  | none => prev
  | some m =>
    if isValidMessage (some m) then reconcile B user (normalizeMessage B m) prev
    else prev

/-- The updater passed to `setConversations` by `handleNewMessage` for a
message of another user: the conversation of the message gets the message as
`lastMessage` and `unreadCount + 1`. -/
def bumpConversation (n : Message) (conv : Conversation) : Conversation :=
  if some conv._id == n.chatId then
    { conv with lastMessage := some n, unreadCount := conv.unreadCount + 1 }
  else conv

/-- The comparator of the conversation sort,
`new Date(b.lastMessage?.createdAt) - new Date(a.lastMessage?.createdAt)`,
read as "a may stand before b": the difference is not positive. A difference
that is `NaN` (a missing or invalid date) is taken as zero here; for such
a pair the comparator is not a consistent order and what
`Array.prototype.sort` does with it is left to the engine. -/
def recencyLe (a b : Conversation) : Bool :=
  match lastCreatedAt a, lastCreatedAt b with
  | some x, some y => decide (y - x ≤ 0)
  | _, _ => true

/-- The effect of `handleNewMessage` on the `conversations` list, for a
normalised message `n`. `Array.prototype.sort` is stable; it is modelled by
insertion sort, which gives the order of the engine when every conversation
has a last message with a valid date. When one has none the comparator
returns `NaN` and the order is implementation-defined: the list computed
here is then one of the possible orders only, and nothing is proved from
it (the entries themselves, their counters included, do not depend on the
order). -/
def bumpConversations (user : User) (n : Message) (prev : List Conversation) :
    List Conversation :=
  if getSenderId n.sender != some user._id then
    (prev.map (bumpConversation n)).insertionSort (fun a b => recencyLe a b = true)
  else prev

/-- The effect of `handleNewMessage` on the `conversations` list. -/
def handleNewMessageConversations (B : JsBuiltins) (user : User)
    (prev : List Conversation) (message : Option Message) : List Conversation :=
  match message with
  | none => prev
  | some m =>
    if isValidMessage (some m) then bumpConversations user (normalizeMessage B m) prev
    else prev

/-! ## Chat.js: `selectChat` -/

/-- The filter of `selectChat` on the loaded messages: `_id`, `content` and
`sender` truthy, and a populated sender has an `_id`. -/
def isLoadable (msg : Message) : Bool :=
  truthyStr msg._id && msg.content.truthy && truthySender msg.sender &&
    (match msg.sender with
     | some (Sender.populated i _) => truthyStr i
     | _ => true)

/-- The `validMessages` of `selectChat`: the loaded messages filtered and
their content normalised. -/
def validMessages (B : JsBuiltins) (messages : List Message) : List Message :=
  (messages.filter isLoadable).map (normalizeMessage B)

/-! ## Chat.js: `sendMessage` and the REST fallback -/

/-- White space in the sense of `String.prototype.trim`. -/
def jsWhitespace (c : Char) : Bool :=
  let n := c.toNat
  n == 9 || n == 10 || n == 11 || n == 12 || n == 13 || n == 32 || n == 160 ||
    n == 5760 || (8192 ≤ n && n ≤ 8202) || n == 8232 || n == 8233 || n == 8239 ||
    n == 8287 || n == 12288 || n == 65279

/-- The method `String.prototype.trim`. -/
def jsTrim (s : String) : String :=
  String.mk (((s.data.dropWhile jsWhitespace).reverse.dropWhile jsWhitespace).reverse)

/-- The temporary id of `sendMessage`, `temp_<Date.now()>_<Math.random()>`;
`rand` is the rendering of the number drawn. -/
def mkTempId (now : Nat) (rand : String) : String :=
  "temp_" ++ toString now ++ "_" ++ rand

/-- The `optimisticMessage` of `sendMessage`. -/
def optimisticMessage (user : User) (tempId : String) (messageContent : String)
    (now : Nat) : Message :=
  { _id := some tempId
    sender := some (Sender.populated (some user._id) (some user.name))
    content := JsVal.str messageContent
    createdAt := some (now : Int)
    isOptimistic := true
    status := some "sending" }

/-- The success update of `sendViaAPI`: the entry with the temporary id gets
status `sent` and the id of the response (`response.message._id`). -/
def restSuccessUpdate (tempId : String) (serverId : Option String)
    (prev : List Message) : List Message :=
  prev.map fun msg =>
    if msg._id == some tempId then { msg with status := some "sent", _id := serverId }
    else msg

/-- The failure update of `sendViaAPI`: the entry with the temporary id gets
status `failed` and a retry handle. -/
def restFailureUpdate (tempId : String) (prev : List Message) : List Message :=
  prev.map fun msg =>
    if msg._id == some tempId then { msg with status := some "failed", retry := true }
    else msg

/-- The update of the `catch` block of `sendMessage`: every entry whose id
starts with `temp_` and whose status is `sending` becomes `failed`. Reading
`msg._id.toString()` on an entry without `_id` throws: `none`. -/
def sendErrorUpdate (prev : List Message) : Option (List Message) :=
  if prev.all (fun msg => msg._id.isSome) then
    some (prev.map fun msg =>
      if "temp_".data.isPrefixOf (msg._id.getD "").data && msg.status == some "sending" then
        { msg with status := some "failed" }
      else msg)
  else none

/-- The first update of `retryMessage`: the entry with the id of the failed
message goes back to `sending`. -/
def retryUpdate (failedId : Option String) (prev : List Message) : List Message :=
  prev.map fun msg =>
    if msg._id == failedId then { msg with status := some "sending" } else msg

/-- A call of `chatService.sendMessage(chatId, { content, messageType, tempId })`. -/
structure RestCall where
  chatId : String
  content : String
  tempId : String
  deriving DecidableEq, Repr

/-- An emission on the socket. -/
inductive SocketEmit where
  | send_message (chatId : String) (content : String) (tempId : String)
  | typing_stop (chatId : String)
  | join_chat (chatId : String)
  deriving DecidableEq, Repr

/-- The state of the chat page, with the pending `socketTimeout` timers (the
time at which each fires and the REST call its callback `sendViaAPI` makes)
and the logs of the REST calls and socket emissions made so far. -/
structure ChatPage where
  conversations : List Conversation := []
  selectedChat : Option Conversation := none
  messages : List Message := []
  newMessage : String := ""
  isTyping : Bool := false
  now : Nat := 0
  timers : List (Nat × RestCall) := []
  restCalls : List RestCall := []
  emitted : List SocketEmit := []
  typingUsers : List String := []
  deriving Repr

/-- The update of the conversations list at the end of `sendMessage`. -/
def touchConversation (user : User) (chatId : String) (messageContent : String)
    (now : Nat) (conv : Conversation) : Conversation :=
  if conv._id == chatId then
    { conv with
      lastMessage := some
        { content := JsVal.str messageContent
          createdAt := some (now : Int)
          sender := some (Sender.populated (some user._id) (some user.name)) }
      updatedAt := some (now : Int) }
  else conv

/-- Where the body of `sendMessage` throws, if it does: the two calls into
the socket service made inside its `try` block are the only statements of the
block that run foreign code synchronously (`sendViaAPI` is an `async`
function with a `try` of its own, so calling it never throws). -/
inductive SendFault where
  | noFault
  | atSendMessage
  | atStopTyping
  deriving DecidableEq, Repr

/-- Chat.js `sendMessage`, up to the first `await`, with its `try`/`catch`.
`connected` is `socketService.getSocket()?.connected`. With a connected
socket the message is emitted and `sendViaAPI` is armed on a 3000 ms timer;
otherwise `sendViaAPI` runs at once and calls `chatService.sendMessage`.
When `socketService.sendMessage` throws, control passes to the `catch` block
before the timer is armed: the input has been cleared and the optimistic
entry appended, and the `catch` update `sendErrorUpdate` is applied; nothing
else has run. When `socketService.stopTyping` throws (it is called only while
`isTyping`), the timer or the REST call is already made, and `isTyping` and
the conversations keep their values. A `catch` update that itself throws
leaves the list as it was. -/
def sendMessage (user : User) (connected : Bool) (fault : SendFault) (rand : String)
    (s : ChatPage) : ChatPage :=
  match s.selectedChat with
  | none => s
  | some chat =>
    if jsTrim s.newMessage == "" then s
    else
      let messageContent := jsTrim s.newMessage
      let tempId := mkTempId s.now rand
      let call : RestCall := { chatId := chat._id, content := messageContent, tempId := tempId }
      let sent : List SocketEmit :=
        if connected then [SocketEmit.send_message chat._id messageContent tempId] else []
      let stop : List SocketEmit :=
        if s.isTyping then [SocketEmit.typing_stop chat._id] else []
      let appended := s.messages ++ [optimisticMessage user tempId messageContent s.now]
      let caught := (sendErrorUpdate appended).getD appended
      if connected && fault == SendFault.atSendMessage then
        { s with
          newMessage := ""
          messages := caught }
      else if s.isTyping && fault == SendFault.atStopTyping then
        { s with
          newMessage := ""
          messages := caught
          timers := if connected then s.timers ++ [(s.now + 3000, call)] else s.timers
          restCalls := if connected then s.restCalls else s.restCalls ++ [call]
          emitted := s.emitted ++ sent }
      else
        { s with
          newMessage := ""
          messages := appended
          timers := if connected then s.timers ++ [(s.now + 3000, call)] else s.timers
          restCalls := if connected then s.restCalls else s.restCalls ++ [call]
          emitted := s.emitted ++ sent ++ stop
          isTyping := false
          conversations := s.conversations.map (touchConversation user chat._id messageContent s.now) }

/-- Chat.js `handleNewMessage` on the page state. The pending timers are not
touched: the handler never calls `clearTimeout`. -/
def handleNewMessage (B : JsBuiltins) (user : User) (s : ChatPage)
    (message : Option Message) : ChatPage :=
  { s with
    messages := handleNewMessageMessages B user s.messages message
    conversations := handleNewMessageConversations B user s.conversations message }

/-- Time passes: the clock advances by `ms` and every timer that is due
fires once, its callback `sendViaAPI` calling `chatService.sendMessage`. -/
def elapse (ms : Nat) (s : ChatPage) : ChatPage :=
  let now := s.now + ms
  { s with
    now := now
    restCalls := s.restCalls ++ ((s.timers.filter fun t => decide (t.1 ≤ now)).map Prod.snd)
    timers := s.timers.filter fun t => !decide (t.1 ≤ now) }

/-- What can happen to the page after a send. -/
inductive PageEvent where
  | newMessage (message : Option Message)
  | elapse (ms : Nat)
  | restSuccess (tempId : String) (serverId : Option String)
  | restFailure (tempId : String)
  deriving Repr

/-- One step of the page. -/
def stepPage (B : JsBuiltins) (user : User) (s : ChatPage) : PageEvent → ChatPage
  | PageEvent.newMessage m => handleNewMessage B user s m
  | PageEvent.elapse ms => elapse ms s
  | PageEvent.restSuccess t sid => { s with messages := restSuccessUpdate t sid s.messages }
  | PageEvent.restFailure t => { s with messages := restFailureUpdate t s.messages }

/-- A run of the page over a sequence of events. -/
def runPage (B : JsBuiltins) (user : User) (s : ChatPage) (es : List PageEvent) : ChatPage :=
  es.foldl (stepPage B user) s

/-- The time that passes during a run. -/
def elapsed : List PageEvent → Nat
  | [] => 0
  | PageEvent.elapse ms :: es => ms + elapsed es
  | _ :: es => elapsed es

/-- The number of REST calls made so far for a temporary id. -/
def restCallsFor (tempId : String) (s : ChatPage) : Nat :=
  s.restCalls.countP fun c => c.tempId == tempId

/-! ## chatSlice.js: the chat reducer -/

/-- The `lastMessage` written by the reducer `addMessage`. -/
structure LastMessage where
  content : JsVal
  sender : Option Sender
  timestamp : Option Int
  deriving DecidableEq, Repr

/-- A chat of `state.chats`. -/
structure Chat where
  _id : String
  lastMessage : Option LastMessage := none
  deriving DecidableEq, Repr

/-- The `unreadCounts` object: chat id to count, in insertion order. -/
abbrev UnreadCounts := List (String × Nat)

/-- The property read `unreadCounts[chatId]`. -/
def UnreadCounts.get (u : UnreadCounts) (chatId : String) : Option Nat :=
  u.lookup chatId

/-- The property write `unreadCounts[chatId] = count`. -/
def UnreadCounts.put : UnreadCounts → String → Nat → UnreadCounts
  | [], chatId, count => [(chatId, count)]
  | (k, v) :: rest, chatId, count =>
    if k == chatId then (k, count) :: rest
    else (k, v) :: UnreadCounts.put rest chatId count

/-- The part of the chat slice state that the message reducers use. -/
structure ChatState where
  chats : List Chat := []
  activeChat : Option Chat := none
  messages : List Message := []
  unreadCounts : UnreadCounts := []
  typingUsers : List (String × Option String) := []
  deriving DecidableEq, Repr

/-- Whether `state.activeChat && state.activeChat._id === chatId`. -/
def isActive (activeChat : Option Chat) (chatId : String) : Bool :=
  match activeChat with
  | some a => a._id == chatId
  | none => false

/-- The reducer `setActiveChat`. -/
def setActiveChat (s : ChatState) (payload : Option Chat) : ChatState :=
  match payload with
  | some c => { s with activeChat := some c, unreadCounts := s.unreadCounts.put c._id 0 }
  | none => { s with activeChat := none }

/-- The reducer `addMessage`; `now` is the value of `new Date()`. The
timestamp `message.createdAt || new Date()` is the `createdAt` of the message
when that field is truthy and the clock otherwise. -/
def addMessage (s : ChatState) (chatId : String) (message : Message) (now : Int) :
    ChatState :=
  let s1 : ChatState :=
    if isActive s.activeChat chatId then { s with messages := s.messages ++ [message] } else s
  match s1.chats.findIdx? (fun c => c._id == chatId) with
  | none => s1
  | some chatIndex =>
    match s1.chats[chatIndex]? with
    | none => s1
    | some found =>
      let chat : Chat :=
        { found with
          lastMessage := some
            { content := message.content
              sender := message.sender
              timestamp := if message.createdAtTruthy then message.createdAt else some now } }
      let s2 : ChatState := { s1 with chats := chat :: s1.chats.eraseIdx chatIndex }
      if !isActive s2.activeChat chatId then
        { s2 with
          unreadCounts :=
            s2.unreadCounts.put chatId (((s2.unreadCounts.get chatId).getD 0) + 1) }
      else s2

/-- The reducer `addMessage` dispatched for each message of a list in turn,
each with its clock reading. -/
def addMessages (s : ChatState) (chatId : String) : List (Message × Int) → ChatState
  | [] => s
  | (m, now) :: rest => addMessages (addMessage s chatId m now) chatId rest

/-! ## Events on the message list -/

/-- The events that update the `messages` list, `retryMessage` apart. -/
inductive MessagesEvent where
  | newMessage (message : Option Message)
  | restSuccess (tempId : String) (serverId : Option String)
  | restFailure (tempId : String)
  | sendError
  | optimisticSend (tempId : String) (messageContent : String) (now : Nat)
  deriving Repr

/-- The update of the `messages` list by an event; `none` when the updater
throws. -/
def applyMessagesEvent (B : JsBuiltins) (user : User) (prev : List Message) :
    MessagesEvent → Option (List Message)
  | MessagesEvent.newMessage m => some (handleNewMessageMessages B user prev m)
  | MessagesEvent.restSuccess t sid => some (restSuccessUpdate t sid prev)
  | MessagesEvent.restFailure t => some (restFailureUpdate t prev)
  | MessagesEvent.sendError => sendErrorUpdate prev
  | MessagesEvent.optimisticSend t c now => some (prev ++ [optimisticMessage user t c now])

/-- No entry that had left `sending` in `prev` is `sending` in `after`
(entries are followed by their index). -/
def KeepsResolved (prev after : List Message) : Prop :=
  ∀ (i : Nat) (x : Message), prev[i]? = some x → x.status ≠ some "sending" →
    ∃ y : Message, after[i]? = some y ∧ y.status ≠ some "sending"

/-- The number of entries of a list that stand for the message with
temporary id `T` and server id `S`: the entries whose `_id` is `T` or `S`. -/
def entriesFor (T S : String) (l : List Message) : Nat :=
  l.countP fun x => x._id == some T || x._id == some S

/-- The order of two entries by `createdAt`: `a` is not later than `b`.
A comparison with an invalid date is false. -/
def createdLe (a b : Message) : Prop :=
  match a.createdAt, b.createdAt with
  | some x, some y => x ≤ y
  | _, _ => False

instance createdLe.decidable (a b : Message) : Decidable (createdLe a b) := by
  unfold createdLe
  split
  · exact inferInstance
  · exact inferInstance

/-- The list is sorted by `createdAt` ascending. -/
def SortedByCreatedAt (l : List Message) : Prop :=
  l.Pairwise createdLe

instance SortedByCreatedAt.decidable (l : List Message) : Decidable (SortedByCreatedAt l) := by
  unfold SortedByCreatedAt
  exact inferInstance

/-- The number of pending timers whose callback posts the message with the
given temporary id. -/
def pendingFor (tempId : String) (s : ChatPage) : Nat :=
  s.timers.countP fun t => t.2.tempId == tempId

/-- The state of the fallback for a message sent over a connected socket:
every pending timer of the message is due at `due`, and either the timer is
pending and no REST call was made, or it has fired and one call was made. -/
def FallbackArmed (tempId : String) (due : Nat) (s : ChatPage) : Prop :=
  (∀ t ∈ s.timers, t.2.tempId = tempId → t.1 = due) ∧
    ((restCallsFor tempId s = 0 ∧ pendingFor tempId s = 1 ∧ s.now < due) ∨
      (restCallsFor tempId s = 1 ∧ pendingFor tempId s = 0 ∧ due ≤ s.now))

/-! ## chatService.js: `sendMessage` -/

/-- The second argument of `chatService.sendMessage`: the content string
(old format) or a message object (new format) with the fields the callers
put in it. -/
inductive MessageData where
  | text (content : String)
  | object (content : JsVal) (messageType : Option String)
      (attachments : Option (List String)) (tempId : Option String)
  deriving DecidableEq, Repr

/-- The value of a property of the posted payload. -/
inductive PayloadVal where
  | val (v : JsVal)
  | list (items : List String)
  deriving DecidableEq, Repr

/-- The request made by `api.post(url, payload)`; the payload is the object
literal, property by property. -/
structure RestPost where
  url : String
  payload : List (String × PayloadVal)
  deriving DecidableEq, Repr

/-- The function `sendMessage` of chatService.js, with its defaults
`messageType = 'text'` and `attachments = []` passed explicitly. -/
def chatServiceSendMessage (chatId : String) (messageData : MessageData)
    (messageType : String) (attachments : List String) : RestPost :=
  let payload : List (String × PayloadVal) :=
    match messageData with
    | MessageData.text content =>
      [("content", PayloadVal.val (JsVal.str content)),
       ("messageType", PayloadVal.val (JsVal.str messageType)),
       ("attachments", PayloadVal.list attachments)]
    | MessageData.object content mt att _ =>
      [("content", PayloadVal.val content),
       ("messageType", PayloadVal.val (JsVal.str (if truthyStr mt then templateStr mt else "text"))),
       ("attachments", PayloadVal.list (att.getD []))]
  { url := "/chat/" ++ chatId ++ "/messages", payload := payload }

/-- The call of `chatService.sendMessage` made by `sendViaAPI` for a REST
call of the page: `sendMessage(chatId, { content, messageType: 'text', tempId })`. -/
def sendViaAPIPost (call : RestCall) : RestPost :=
  chatServiceSendMessage call.chatId
    (MessageData.object (JsVal.str call.content) (some "text") none (some call.tempId))
    "text" []

/-! ## Chat.js: `retryMessage` -/

/-- The success update of `retryMessage`: the entry with the id of the
failed message gets status `sent` and the id of the response. -/
def retrySuccessUpdate (failedId : Option String) (serverId : Option String)
    (prev : List Message) : List Message :=
  prev.map fun msg =>
    if msg._id == failedId then { msg with status := some "sent", _id := serverId } else msg

/-- The failure update of `retryMessage`: the entry with the id of the
failed message gets status `failed`. -/
def retryFailureUpdate (failedId : Option String) (prev : List Message) : List Message :=
  prev.map fun msg =>
    if msg._id == failedId then { msg with status := some "failed" } else msg

/-- The outcome of the awaited REST call: the response with
`response.message._id`, or a rejection. -/
inductive RestOutcome where
  | success (serverId : Option String)
  | failure
  deriving DecidableEq, Repr

/-- What a message is sent with: the conversation, the content and the
correlation id (`tempId`). -/
structure Delivery where
  chatId : String
  content : JsVal
  tempId : Option String
  deriving DecidableEq, Repr

/-- A run of `retryMessage`: the list after the first update, the arguments
of the REST call, the list after the update that follows the outcome, and
the argument of `socketService.sendMessage` (made after a success only). -/
structure RetryRun where
  started : List Message
  restCall : Delivery
  finished : List Message
  socketSend : Option Delivery
  deriving DecidableEq, Repr

/-- Chat.js `retryMessage`; `none` when the guard
`!failedMessage || !selectedChat` returns at once. -/
def retryMessage (selectedChat : Option Conversation) (failedMessage : Option Message)
    (outcome : RestOutcome) (prev : List Message) : Option RetryRun :=
  match failedMessage, selectedChat with
  | some f, some chat =>
    let started := retryUpdate f._id prev
    let delivery : Delivery := { chatId := chat._id, content := f.content, tempId := f._id }
    match outcome with
    | RestOutcome.success serverId =>
      some { started := started, restCall := delivery,
             finished := retrySuccessUpdate f._id serverId started,
             socketSend := some delivery }
    | RestOutcome.failure =>
      some { started := started, restCall := delivery,
             finished := retryFailureUpdate f._id started,
             socketSend := none }
  | _, _ => none

/-! ## chatSlice.js: the chat list reducers -/

/-- The spread `{ ...existing, ...updatedChat }` of `updateChat`: a field
present in the update wins, a field absent from it keeps its value. -/
def mergeChat (existing updated : Chat) : Chat :=
  { _id := updated._id
    lastMessage := match updated.lastMessage with
      | some l => some l
      | none => existing.lastMessage }

/-- The reducer `addChat`: the chat with the same id is overwritten by the
new chat, or the new chat is put in front. -/
def addChat (s : ChatState) (newChat : Chat) : ChatState :=
  match s.chats.findIdx? (fun c => c._id == newChat._id) with
  | some existingIndex => { s with chats := s.chats.set existingIndex newChat }
  | none => { s with chats := newChat :: s.chats }

/-- The reducer `updateChat`. -/
def updateChat (s : ChatState) (updatedChat : Chat) : ChatState :=
  match s.chats.findIdx? (fun c => c._id == updatedChat._id) with
  | some index =>
    match s.chats[index]? with
    | some existing => { s with chats := s.chats.set index (mergeChat existing updatedChat) }
    | none => s
  | none => s

/-- The reducer `updateUnreadCount`. -/
def updateUnreadCount (s : ChatState) (chatId : String) (count : Nat) : ChatState :=
  { s with unreadCounts := s.unreadCounts.put chatId count }

/-- The reducer `markChatAsRead`. -/
def markChatAsRead (s : ChatState) (chatId : String) : ChatState :=
  let s1 : ChatState := { s with unreadCounts := s.unreadCounts.put chatId 0 }
  if isActive s1.activeChat chatId then
    { s1 with messages := s1.messages.map fun msg => { msg with readBy := some (msg.readBy.getD []) } }
  else s1

/-- The sequence of chat ids of `state.chats`. -/
def chatIds (s : ChatState) : List String :=
  s.chats.map fun c => c._id

/-- The fuzzy part of the first `findIndex` of `handleNewMessage`: an
optimistic entry with the content and the sender of the message. -/
def sameContentAndSender (n : Message) (msg : Message) : Bool :=
  msg.isOptimistic && msg.content.strictEq n.content &&
    getSenderId msg.sender == getSenderId n.sender

/-- The entry that `handleNewMessage` appends for a new message: the
message with status `delivered` for the current user and `received`
otherwise. -/
def appendedEntry (user : User) (n : Message) : Message :=
  { n with status := some (if getSenderId n.sender == some user._id then "delivered" else "received") }

/-! ## Chat.js: `startChatWithUser`, `selectChat`, typing users -/

/-- The updater passed to `setConversations` by `startChatWithUser`: the
chat of the response is put in front unless a conversation with its id is
in the list. -/
def startChatWithUserInsert (chat : Conversation) (prev : List Conversation) :
    List Conversation :=
  match prev.find? (fun conv => conv._id == chat._id) with
  | some _ => prev
  | none => chat :: prev

/-- Chat.js `selectChat`. `loaded` is the message list of the response of
`chatService.getChat` (`none` when the call is rejected: the `catch` block
only logs); `marked` tells whether `chatService.markAsRead` resolved. -/
def selectChat (B : JsBuiltins) (chat : Option Conversation) (loaded : Option (List Message))
    (marked : Bool) (s : ChatPage) : ChatPage :=
  match chat with
  | none => s
  | some c =>
    if c._id == "" then s
    else
      let s1 : ChatPage := { s with selectedChat := some c }
      match loaded with
      | none => s1
      | some messages =>
        let s2 : ChatPage :=
          { s1 with
            messages := validMessages B messages
            emitted := s1.emitted ++ [SocketEmit.join_chat c._id] }
        if marked then
          { s2 with
            conversations := s2.conversations.map fun conv =>
              if conv._id == c._id then { conv with unreadCount := 0 } else conv }
        else s2

/-- Chat.js `handleTypingStart`. `user` and `selectedChat` are the values
held by the closure of the handler. The listener is registered once, by
`initializeChat` at mount, so for the handler that the socket calls they are
the values of the first render, where `selectedChat` is `null` (`none`).
`chatId` is the property of the payload, `none` when the payload has none:
`selectedChat?._id === chatId` compares `undefined` with it when no chat is
held. -/
def handleTypingStart (user : User) (selectedChat : Option Conversation) (userId : String)
    (chatId : Option String) (s : ChatPage) : ChatPage :=
  if selectedChat.map (fun c => c._id) == chatId && userId != user._id then
    { s with typingUsers := s.typingUsers.filter (fun id => id != userId) ++ [userId] }
  else s

/-- Chat.js `handleTypingStop`. `selectedChat` is the value held by the
closure of the handler, as for `handleTypingStart`. -/
def handleTypingStop (selectedChat : Option Conversation) (userId : String)
    (chatId : Option String) (s : ChatPage) : ChatPage :=
  if selectedChat.map (fun c => c._id) == chatId then
    { s with typingUsers := s.typingUsers.filter (fun id => id != userId) }
  else s

/-! ## Chat.js: `filteredConversations` -/

/-- The test of the `find` of `getOtherUser`: the participant is not null,
its user is populated with an `_id`, and that `_id` is not the current
user's. -/
def isOtherParticipant (user : User) : Option Participant → Bool
  | some { user := some (ParticipantUser.populated u) } =>
    truthyStr u._id && u._id != some user._id
  | _ => false

/-- Chat.js `getOtherUser`. -/
def getOtherUser (user : User) (chat : Conversation) : Option ChatUser :=
  match chat.participants with
  | none => none
  | some ps =>
    if user._id == "" then none
    else
      match ps.find? (isOtherParticipant user) with
      | some (some { user := some (ParticipantUser.populated u) }) => some u
      | _ => none

/-- The method `String.prototype.includes`. -/
def jsIncludes (s search : String) : Bool :=
  decide (search.data <:+: s.data)

/-- The platform function `String.prototype.toLowerCase`. -/
structure StringBuiltins where
  toLowerCase : String → String

/-- The value of `field?.toLowerCase().includes(searchLower)` for an
optional string field: `none` stands for `undefined`. -/
def fieldIncludes (L : StringBuiltins) (field : Option String) (searchLower : String) :
    Option Bool :=
  field.map fun v => jsIncludes (L.toLowerCase v) searchLower

/-- The truthiness of the value returned by the filter callback of
`filteredConversations` for a conversation with another user; `none` when
the callback throws (a last-message content that is neither a string nor
null nor undefined has no `toLowerCase`). -/
def matchesSearch (L : StringBuiltins) (searchQuery : String) (otherUser : ChatUser)
    (conv : Conversation) : Option Bool :=
  let searchLower := L.toLowerCase searchQuery
  if fieldIncludes L otherUser.name searchLower == some true then some true
  else if fieldIncludes L otherUser.businessName searchLower == some true then some true
  else
    match conv.lastMessage with
    | none => some false
    | some last =>
      match last.content with
      | JsVal.undefined => some false
      | JsVal.null => some false
      | JsVal.str v => some (jsIncludes (L.toLowerCase v) searchLower)
      | _ => none

/-- The filter callback of `filteredConversations`. -/
def keepsConversation (L : StringBuiltins) (user : User) (searchQuery : String)
    (conv : Conversation) : Option Bool :=
  if conv._id == "" || conv.participants.isNone then some false
  else
    match getOtherUser user conv with
    | none => some false
    | some otherUser => matchesSearch L searchQuery otherUser conv

/-- The method `Array.prototype.filter` with a callback that may throw. -/
def filterThrowing {α : Type} (p : α → Option Bool) : List α → Option (List α)
  | [] => some []
  | x :: xs =>
    match p x with
    | none => none
    | some keep =>
      match filterThrowing p xs with
      | none => none
      | some rest => some (if keep then x :: rest else rest)

/-- Chat.js `filteredConversations`. -/
def filteredConversations (L : StringBuiltins) (user : User) (searchQuery : String)
    (conversations : List Conversation) : Option (List Conversation) :=
  filterThrowing (keepsConversation L user searchQuery) conversations

/-! ## socketService.js: the emitting operations -/

/-- The second argument of a `socket.emit` call. -/
inductive EmitPayload where
  | chatId (id : String)
  | chatObject (chatId : String)
  | message (data : Delivery)
  deriving DecidableEq, Repr

/-- A call `socket.emit(event, payload)`. -/
structure Emission where
  event : String
  payload : EmitPayload
  deriving DecidableEq, Repr

/-- The transport: the module variable `socket` (`none` is `null`, `some c`
a socket object whose `connected` flag is `c`) and the calls of
`socket.emit` made so far. -/
structure Transport where
  socket : Option Bool := none
  calls : List Emission := []
  deriving DecidableEq, Repr

namespace socketService

/-- The guarded emission shared by the operations: `if (socket) socket.emit(...)`. -/
def emit (e : Emission) (t : Transport) : Transport :=
  match t.socket with
  | some _ => { t with calls := t.calls ++ [e] }
  | none => t

/-- socketService `sendMessage`. -/
def sendMessage (data : Delivery) (t : Transport) : Transport :=
  emit { event := "send_message", payload := EmitPayload.message data } t

/-- socketService `joinChat`. -/
def joinChat (chatId : String) (t : Transport) : Transport :=
  emit { event := "join_chat", payload := EmitPayload.chatId chatId } t

/-- socketService `startTyping`. -/
def startTyping (chatId : String) (t : Transport) : Transport :=
  emit { event := "typing_start", payload := EmitPayload.chatObject chatId } t

/-- socketService `stopTyping`. -/
def stopTyping (chatId : String) (t : Transport) : Transport :=
  emit { event := "typing_stop", payload := EmitPayload.chatObject chatId } t

/-- socketService `disconnectSocket`. -/
def disconnectSocket (t : Transport) : Transport :=
  match t.socket with
  | some _ => { t with socket := none }
  | none => t

end socketService

/-! ## Chat.js: `handleMessageInput` -/

/-- A call of `socketService.startTyping` or `socketService.stopTyping`
made by the composer. -/
inductive TypingCall where
  | startTyping (chatId : String)
  | stopTyping (chatId : String)
  deriving DecidableEq, Repr

/-- The pending callback of `typingTimeoutRef.current`: the time at which it
fires and the values of `isTyping` and `selectedChat` that its closure
captured, those of the render in which the handler ran. -/
structure TypingTimer where
  due : Nat
  isTyping : Bool
  selectedChat : Option String
  deriving DecidableEq, Repr

/-- The state of the message composer. -/
structure Composer where
  newMessage : String := ""
  isTyping : Bool := false
  selectedChat : Option String := none
  typingTimeout : Option TypingTimer := none
  now : Nat := 0
  calls : List TypingCall := []
  deriving DecidableEq, Repr

/-- Chat.js `handleMessageInput` for one keystroke. The new timer replaces
the pending one (`clearTimeout`), and its callback reads the `isTyping` of
the render in which this handler was created, the value before the
keystroke. -/
def handleMessageInput (value : String) (s : Composer) : Composer :=
  let timer : TypingTimer :=
    { due := s.now + 1000, isTyping := s.isTyping, selectedChat := s.selectedChat }
  match s.isTyping, s.selectedChat with
  | false, some chatId =>
    { s with
      newMessage := value
      isTyping := true
      calls := s.calls ++ [TypingCall.startTyping chatId]
      typingTimeout := some timer }
  | _, _ => { s with newMessage := value, typingTimeout := some timer }

/-- Time passes in the composer: the clock advances by `ms`, and the
pending timer fires once when it is due. Its callback stops typing when the
captured `isTyping` is true and a chat was selected. -/
def idle (ms : Nat) (s : Composer) : Composer :=
  let now := s.now + ms
  match s.typingTimeout with
  | none => { s with now := now }
  | some t =>
    if t.due ≤ now then
      match t.isTyping, t.selectedChat with
      | true, some chatId =>
        { s with
          now := now
          typingTimeout := none
          isTyping := false
          calls := s.calls ++ [TypingCall.stopTyping chatId] }
      | _, _ => { s with now := now, typingTimeout := none }
    else { s with now := now }

/-- Further keystrokes of a burst: each one comes after the given pause and
sets the given input value. -/
def typeBurst (s : Composer) : List (Nat × String) → Composer
  | [] => s
  | (pause, value) :: rest => typeBurst (handleMessageInput value (idle pause s)) rest

/-- The composer in the middle of a burst in the chat `chatId`: typing is
on, `startTyping` was called once after the calls of `before`, and the
pending timer is due one second from now with the given captured flag. -/
def MidBurst (before : List TypingCall) (chatId : String) (captured : Bool) (s : Composer) :
    Prop :=
  s.isTyping = true ∧ s.selectedChat = some chatId ∧
    s.typingTimeout =
      some { due := s.now + 1000, isTyping := captured, selectedChat := some chatId } ∧
    s.calls = before ++ [TypingCall.startTyping chatId]

/-! ## cartSlice.js and cartUtils.js -/

/-- The arithmetic of JavaScript numbers as far as the cart code uses it:
`0`, `1`, `+`, `*`, `<=`, `>`, `Math.min`, `Math.max`, truthiness and the
rendering of a number in a template literal. Nothing is assumed of the
operations, so what is proved holds for floating-point numbers (rounding,
`NaN` and the infinities included) as for integers. -/
structure NumberOps (N : Type) where
  zero : N
  one : N
  add : N → N → N
  mul : N → N → N
  le : N → N → Bool
  gt : N → N → Bool
  min : N → N → N
  max : N → N → N
  truthy : N → Bool
  render : N → String

/-- The arithmetic of the integers. -/
def intOps : NumberOps Int :=
  { zero := 0
    one := 1
    add := fun a b => a + b
    mul := fun a b => a * b
    le := fun a b => decide (a ≤ b)
    gt := fun a b => decide (a > b)
    min := fun a b => min a b
    max := fun a b => max a b
    truthy := fun a => a != 0
    render := fun a => toString a }

/-- The `availability` of a product. -/
structure Availability (N : Type) where
  inStock : Bool := false
  quantity : Option N := none
  deriving DecidableEq, Repr

/-- The `seller` of a product, with the fields the cart reads
(`businessName` is `businessInfo?.businessName`). -/
structure Seller where
  _id : Option String := none
  name : Option String := none
  businessName : Option String := none
  deriving DecidableEq, Repr

/-- A product, with the fields the cart reducers read. `seller` is `none`
when the product has no `seller` (undefined or null); `imageUrl` is the
value of `product.images?.[0]?.url`. -/
structure Product (N : Type) where
  _id : String
  name : String := ""
  price : N
  availability : Option (Availability N) := none
  imageUrl : Option String := none
  seller : Option Seller := none
  category : Option String := none
  deriving DecidableEq, Repr

/-- The `seller` of a cart item. -/
structure CartSeller where
  id : Option String := none
  name : Option String := none
  deriving DecidableEq, Repr

/-- An item of the cart. -/
structure CartItem (N : Type) where
  productId : String
  name : String := ""
  price : N
  quantity : N
  image : String := ""
  seller : CartSeller := {}
  availability : Option (Availability N) := none
  category : Option String := none
  deriving DecidableEq, Repr

/-- The cart slice state. -/
structure CartState (N : Type) where
  items : List (CartItem N) := []
  isError : Bool := false
  message : String := ""
  totalQuantity : N
  totalAmount : N
  deriving DecidableEq, Repr

/-- The value of `availability?.quantity || fallback`. -/
def availableOr {N : Type} (A : NumberOps N) (availability : Option (Availability N))
    (fallback : N) : N :=
  match availability with
  | some a =>
    match a.quantity with
    | some q => if A.truthy q then q else fallback
    | none => fallback
  | none => fallback

/-- The result of `validateCartItem`; `maxQuantity` is absent on the early
return for a missing product. -/
structure Validation (N : Type) where
  isValid : Bool
  errors : List String
  maxQuantity : Option N := none
  deriving DecidableEq, Repr

/-- The function `validateCartItem` of cartUtils.js. -/
def validateCartItem {N : Type} (A : NumberOps N) (product : Option (Product N))
    (quantity : N) : Validation N :=
  match product with
  | none => { isValid := false, errors := ["Product not found"] }
  | some p =>
    let inStock : Bool :=
      match p.availability with
      | some a => a.inStock
      | none => false
    let errors : List String :=
      (if !inStock then ["Product is out of stock"] else []) ++
      (if A.le quantity A.zero then ["Quantity must be greater than 0"] else []) ++
      (if A.gt quantity (availableOr A p.availability A.zero) then
        ["Only " ++ A.render (availableOr A p.availability A.zero) ++ " items available"]
       else [])
    { isValid := errors.isEmpty
      errors := errors
      maxQuantity := some (availableOr A p.availability A.zero) }

/-- The helper `calculateTotals` of cartSlice.js: the two `reduce` calls. -/
def calculateTotals {N : Type} (A : NumberOps N) (items : List (CartItem N)) : N × N :=
  (items.foldl (fun total item => A.add total item.quantity) A.zero,
   items.foldl (fun total item => A.add total (A.mul item.price item.quantity)) A.zero)

/-- The recalculation of the totals that ends the reducers. -/
def withTotals {N : Type} (A : NumberOps N) (s : CartState N) : CartState N :=
  { s with
    totalQuantity := (calculateTotals A s.items).1
    totalAmount := (calculateTotals A s.items).2 }

/-- The reducer `addToCart`. The result is `none` when the reducer throws:
on the path that pushes a new item the object literal reads
`product.seller._id`, a `TypeError` for a product without `seller`. (On the
path of an existing item the product is not null, so `maxQuantity` is
present and the fallback of `getD` is never taken.) -/
def addToCart {N : Type} (A : NumberOps N) (s : CartState N) (product : Option (Product N))
    (quantity : N) (userRole : Option String) : Option (CartState N) :=
  if userRole == some "seller" then
    some { s with
      isError := true
      message := "Sellers cannot add items to cart. Cart is only available for buyers to purchase products." }
  else
    let validation := validateCartItem A product quantity
    match validation.isValid, product with
    | true, some p =>
      match s.items.findIdx? (fun item => item.productId == p._id) with
      | some i =>
        let items : List (CartItem N) :=
          s.items.modify (fun existingItem =>
            let newQuantity := A.add existingItem.quantity quantity
            let newValidation := validateCartItem A (some p) newQuantity
            if newValidation.isValid then { existingItem with quantity := newQuantity }
            else { existingItem with quantity := newValidation.maxQuantity.getD newQuantity }) i
        some (withTotals A { s with items := items, isError := false, message := "" })
      | none =>
        match p.seller with
        | none => none
        | some seller =>
          let item : CartItem N :=
            { productId := p._id
              name := p.name
              price := p.price
              quantity := A.min quantity (availableOr A p.availability A.one)
              image := if truthyStr p.imageUrl then p.imageUrl.getD "" else ""
              seller :=
                { id := seller._id
                  name := if truthyStr seller.businessName then seller.businessName
                    else seller.name }
              availability := p.availability
              category := p.category }
          some (withTotals A { s with items := s.items ++ [item], isError := false, message := "" })
    | _, _ => some { s with isError := true, message := ", ".intercalate validation.errors }

/-- The state of the store after `addToCart` is dispatched: a reducer that
throws leaves the state as it was. -/
def afterAddToCart {N : Type} (A : NumberOps N) (s : CartState N)
    (product : Option (Product N)) (quantity : N) (userRole : Option String) : CartState N :=
  (addToCart A s product quantity userRole).getD s

/-- The reducer `updateQuantity`. -/
def updateQuantity {N : Type} (A : NumberOps N) (s : CartState N) (productId : String)
    (quantity : N) : CartState N :=
  match s.items.findIdx? (fun item => item.productId == productId) with
  | some i =>
    withTotals A
      { s with
        items := s.items.modify (fun item =>
          { item with
            quantity := A.max A.one (A.min quantity (availableOr A item.availability A.one)) }) i }
  | none => s

/-- The reducer `removeFromCart`. -/
def removeFromCart {N : Type} (A : NumberOps N) (s : CartState N) (productId : String) :
    CartState N :=
  withTotals A { s with items := s.items.filter fun item => item.productId != productId }

/-- The reducer `clearCart`. -/
def clearCart {N : Type} (A : NumberOps N) (s : CartState N) : CartState N :=
  { s with items := [], totalQuantity := A.zero, totalAmount := A.zero }

/-- The sum of a list of numbers, taken in list order from `0`. -/
def sumOver {N : Type} (A : NumberOps N) (xs : List N) : N :=
  xs.foldl A.add A.zero

/-- The cart totals invariant: `totalQuantity` is the sum of the quantities
and `totalAmount` the sum of `price * quantity` over the items. -/
def CartTotalsOk {N : Type} (A : NumberOps N) (s : CartState N) : Prop :=
  s.totalQuantity = sumOver A (s.items.map fun item => item.quantity) ∧
    s.totalAmount = sumOver A (s.items.map fun item => A.mul item.price item.quantity)

/-! ## Sample data -/

/-- Builtins for the examples: both conversions return a fixed string. -/
def sampleBuiltins : JsBuiltins :=
  { jsonStringify := fun _ => "{}", toString := fun _ => "?" }

/-- The current user of the examples. -/
def alice : User := { _id := "u1", name := "Alice" }

/-- A state with two chats, the first one active, and chat `c2` unread twice. -/
def sampleChatState : ChatState :=
  { chats := [{ _id := "c1" }, { _id := "c2" }]
    activeChat := some { _id := "c1" }
    unreadCounts := [("c2", 2)] }

/-- Three messages with their clock readings. -/
def sampleBurst : List (Message × Int) :=
  [({ _id := some "m1", content := JsVal.str "a" }, 1),
   ({ _id := some "m2", content := JsVal.str "b" }, 2),
   ({ _id := some "m3", content := JsVal.str "c" }, 3)]

/-- An optimistic entry of the current user, still `sending`. -/
def opt1 : Message :=
  { _id := some "temp_1"
    sender := some (Sender.populated (some "u1") (some "Alice"))
    content := JsVal.str "hi"
    createdAt := some 10
    isOptimistic := true
    status := some "sending" }

/-- A second optimistic entry with the same content and sender. -/
def opt2 : Message := { opt1 with _id := some "temp_2", createdAt := some 20 }

/-- The server echo of the second entry: it carries the temporary id of
the second entry. -/
def echo2 : Message :=
  { _id := some "s2"
    sender := some (Sender.ref "u1")
    content := JsVal.str "hi"
    tempId := some "temp_2"
    createdAt := some 21 }

/-- A delivered message of another user. -/
def fromBob : Message :=
  { _id := some "s0"
    sender := some (Sender.ref "u2")
    content := JsVal.str "hello"
    createdAt := some 5
    status := some "received" }

/-- A message of another user that is older than `fromBob`. -/
def lateArrival : Message :=
  { _id := some "s9"
    sender := some (Sender.ref "u2")
    content := JsVal.str "earlier"
    createdAt := some 1 }

/-- A message of another user that is newer than `fromBob`. -/
def inOrderArrival : Message := { lateArrival with createdAt := some 7 }

/-- A conversation with nothing unread. -/
def sampleConversation : Conversation := { _id := "c1", unreadCount := 0 }

/-- A page on which `sampleConversation` is the selected chat and the user
has typed a message. -/
def composingPage : ChatPage :=
  { conversations := [sampleConversation]
    selectedChat := some sampleConversation
    newMessage := " hi " }

/-- A message of another user for the selected conversation. -/
def toSelectedChat : Message :=
  { _id := some "s5"
    sender := some (Sender.ref "u2")
    content := JsVal.str "yo"
    chatId := some "c1"
    createdAt := some 30 }

/-- An inbound message whose content is an object with a numeric `text`. -/
def structuredPayload : Message :=
  { _id := some "s7"
    sender := some (Sender.ref "u2")
    content := JsVal.obj 1 (JsVal.num 42) JsVal.undefined }

/-- The server echo of the message sent from `composingPage` at time 0 with
the random part `0.5`. -/
def echoOfSend : Message :=
  { _id := some "s1"
    sender := some (Sender.ref "u1")
    content := JsVal.str "hi"
    tempId := some "temp_0_0.5"
    chatId := some "c1"
    createdAt := some 900 }

/-- The broadcast of the same message when the server was given no
`tempId`. -/
def echoWithoutTempId : Message := { echoOfSend with tempId := none }

/-- The page one second after the send over a connected socket, when the
echo has been handled. -/
def pageAfterEcho : ChatPage :=
  handleNewMessage sampleBuiltins alice
    (elapse 1000 (sendMessage alice true SendFault.noFault "0.5" composingPage)) (some echoOfSend)

/-- A payload without `sender`. -/
def senderless : Message :=
  { _id := some "s8", content := JsVal.str "orphan", chatId := some "c1" }

/-- The REST call that `sendViaAPI` makes for the message sent from
`composingPage`. -/
def sampleRestCall : RestCall :=
  { chatId := "c1", content := "hi", tempId := "temp_0_0.5" }

/-- The composing page when the list already holds an optimistic entry with
the same text, of an earlier send. -/
def busyPage : ChatPage := { composingPage with messages := [opt1] }

/-- An echo of the current user without `tempId`, far later than `opt1`. -/
def staleEcho : Message :=
  { _id := some "s3"
    sender := some (Sender.ref "u1")
    content := JsVal.str "hi"
    createdAt := some 100000 }

/-- A reducer state whose only chat has a last message. -/
def chatWithHistory : ChatState :=
  { chats := [{ _id := "c1",
                lastMessage := some { content := JsVal.str "old", sender := none,
                                      timestamp := some 1 } }] }

/-- A message of another user that carries, as `tempId`, the id of the
optimistic entry `opt1`. -/
def collidingForeign : Message :=
  { _id := some "s4"
    sender := some (Sender.ref "u2")
    content := JsVal.str "hey"
    tempId := some "temp_1"
    createdAt := some 40 }

/-- A conversation with another user, Bob, who has a name. -/
def chatWithBob : Conversation :=
  { _id := "c2"
    participants := some
      [some { user := some (ParticipantUser.populated { _id := some "u1", name := some "Alice" }) },
       some { user := some (ParticipantUser.populated { _id := some "u2", name := some "Bob" }) }] }

/-- A conversation whose only participant is the current user. -/
def chatWithSelf : Conversation :=
  { _id := "c3"
    participants := some
      [some { user := some (ParticipantUser.populated { _id := some "u1", name := some "Alice" }) }] }

/-- String builtins for the examples: lower-casing leaves the string as it is. -/
def sampleStrings : StringBuiltins := { toLowerCase := fun v => v }

/-- A page on which `sampleConversation` is selected and Bob is typing. -/
def pageWithTyping : ChatPage :=
  { conversations := [sampleConversation, chatWithBob]
    selectedChat := some sampleConversation
    typingUsers := ["u2"] }

/-- A reducer state in which the active chat `c1` shows the message `s0`
and Bob is typing. -/
def activeChatState : ChatState :=
  { chats := [{ _id := "c1" }, { _id := "c2" }]
    activeChat := some { _id := "c1" }
    messages := [fromBob]
    typingUsers := [("u2", some "Bob")] }

/-- A transport whose socket object exists and is disconnected. -/
def disconnectedTransport : Transport := { socket := some false }

/-- The composer at rest with the chat `c1` selected. -/
def idleComposer : Composer := { selectedChat := some "c1" }

/-- A product in stock, five available. -/
def sampleProduct : Product Int :=
  { _id := "p1", name := "Honey", price := 7,
    availability := some { inStock := true, quantity := some 5 }
    seller := some { _id := some "u7", name := some "Bea" } }

/-- A product that is not in `sampleCart`, with a seller. -/
def sampleJam : Product Int :=
  { _id := "p2", name := "Jam", price := 4,
    availability := some { inStock := true, quantity := some 3 }
    seller := some { _id := some "u7", name := some "Bea" } }

/-- A product that is not in `sampleCart`, without `seller`. -/
def sellerlessJam : Product Int := { sampleJam with seller := none }

/-- A cart with two honeys, its totals in order. -/
def sampleCart : CartState Int :=
  { items := [{ productId := "p1", name := "Honey", price := 7, quantity := 2,
                availability := some { inStock := true, quantity := some 5 } }]
    totalQuantity := 2
    totalAmount := 14 }

/-! # Theorems -/

/-! ## The unread counters of the reducer -/

theorem UnreadCounts.get_put_self (u : UnreadCounts) (chatId : String) (count : Nat) :
    (u.put chatId count).get chatId = some count := by
  induction u with
  | nil => simp [UnreadCounts.put, UnreadCounts.get, List.lookup]
  | cons p rest ih =>
    obtain ⟨k, v⟩ := p
    by_cases hk : k = chatId
    · subst hk
      simp [UnreadCounts.put, UnreadCounts.get, List.lookup]
    · have hk' : (chatId == k) = false := by
        simpa using fun h => hk h.symm
      simp only [UnreadCounts.get] at ih
      simp [UnreadCounts.put, UnreadCounts.get, List.lookup, hk, hk', ih]

theorem isActive_eq_false_of_not_active (s : ChatState) (chatId : String)
    (h : ∀ a, s.activeChat = some a → a._id ≠ chatId) :
    isActive s.activeChat chatId = false := by
  unfold isActive
  cases ha : s.activeChat with
  | none => rfl
  | some a => simpa using h a ha

/-- One `addMessage` for a chat that is present and not active: the active
chat is kept, the chat stays present and its count grows by one. -/
theorem addMessage_inactive (s : ChatState) (chatId : String) (m : Message) (now : Int)
    (hpresent : ∃ c ∈ s.chats, c._id = chatId)
    (hinactive : ∀ a, s.activeChat = some a → a._id ≠ chatId) :
    (addMessage s chatId m now).activeChat = s.activeChat ∧
    (∃ c ∈ (addMessage s chatId m now).chats, c._id = chatId) ∧
    ((addMessage s chatId m now).unreadCounts.get chatId).getD 0 =
      (s.unreadCounts.get chatId).getD 0 + 1 := by
  have hact := isActive_eq_false_of_not_active s chatId hinactive
  obtain ⟨c, hc, hcid⟩ := hpresent
  have hex : ∃ x, x ∈ s.chats ∧ (fun c : Chat => c._id == chatId) x = true :=
    ⟨c, hc, by simp [hcid]⟩
  have hsome := List.findIdx?_eq_some_of_exists hex
  obtain ⟨hlt, hfound, _⟩ := List.findIdx?_eq_some_iff_getElem.mp hsome
  have hget : s.chats[s.chats.findIdx (fun c : Chat => c._id == chatId)]? =
      some (s.chats[s.chats.findIdx (fun c : Chat => c._id == chatId)]) :=
    List.getElem?_eq_getElem hlt
  have hid : (s.chats[s.chats.findIdx (fun c : Chat => c._id == chatId)])._id = chatId := by
    simpa using hfound
  simp only [addMessage, hact, Bool.false_eq_true, if_false, hsome, hget,
    Bool.not_false, if_true]
  refine ⟨trivial, ⟨_, List.mem_cons_self _ _, hid⟩, ?_⟩
  simp [UnreadCounts.get_put_self]

theorem addMessages_inactive (chatId : String) (ms : List (Message × Int)) :
    ∀ s : ChatState, (∃ c ∈ s.chats, c._id = chatId) →
      (∀ a, s.activeChat = some a → a._id ≠ chatId) →
      ((addMessages s chatId ms).unreadCounts.get chatId).getD 0 =
        (s.unreadCounts.get chatId).getD 0 + ms.length := by
  induction ms with
  | nil => intro s _ _; simp [addMessages]
  | cons p rest ih =>
    intro s hpresent hinactive
    obtain ⟨m, now⟩ := p
    obtain ⟨hact, hpres, hcount⟩ := addMessage_inactive s chatId m now hpresent hinactive
    have hin : ∀ a, (addMessage s chatId m now).activeChat = some a → a._id ≠ chatId := by
      intro a ha
      exact hinactive a (hact ▸ ha)
    simp only [addMessages, List.length_cons]
    rw [ih (addMessage s chatId m now) hpres hin, hcount]
    omega

/-- C3. In the chat reducer, for a conversation `c` that is present in
`state.chats` and is not the active chat, dispatching `addMessage` for `c`
N times (here once per element of `ms`) raises `unreadCounts[c]` by exactly N,
a missing count being read as 0; a following `setActiveChat` with that
conversation sets `unreadCounts[c]` to 0. -/
theorem addMessages_unread_then_setActiveChat (s : ChatState) (c : Chat)
    (ms : List (Message × Int)) (hpresent : c ∈ s.chats)
    (hinactive : ∀ a, s.activeChat = some a → a._id ≠ c._id) :
    ((addMessages s c._id ms).unreadCounts.get c._id).getD 0 =
        (s.unreadCounts.get c._id).getD 0 + ms.length ∧
      ∀ c' : Chat, c'._id = c._id →
        (setActiveChat (addMessages s c._id ms) (some c')).unreadCounts.get c._id = some 0 := by
  refine ⟨addMessages_inactive c._id ms s ⟨c, hpresent, rfl⟩ hinactive, ?_⟩
  intro c' hc'
  simp only [setActiveChat]
  rw [hc']
  exact UnreadCounts.get_put_self _ _ _

theorem addMessages_unread_then_setActiveChat_witness :
    ((addMessages sampleChatState "c2" sampleBurst).unreadCounts.get "c2").getD 0 = 5 ∧
      (setActiveChat (addMessages sampleChatState "c2" sampleBurst)
        (some { _id := "c2" })).unreadCounts.get "c2" = some 0 := by
  have h := addMessages_unread_then_setActiveChat sampleChatState { _id := "c2" } sampleBurst
    (by decide) (by decide)
  exact ⟨h.1, h.2 { _id := "c2" } rfl⟩

/-! ## Resolved entries stay resolved -/

theorem keepsResolved_refl (prev : List Message) : KeepsResolved prev prev :=
  fun _ x hx hs => ⟨x, hx, hs⟩

theorem keepsResolved_append (prev extra : List Message) :
    KeepsResolved prev (prev ++ extra) := by
  intro i x hx hs
  refine ⟨x, ?_, hs⟩
  have hlt : i < prev.length := (List.getElem?_eq_some_iff.mp hx).1
  rw [List.getElem?_append_left hlt]
  exact hx

theorem keepsResolved_set (prev : List Message) (k : Nat) (y : Message)
    (hy : y.status ≠ some "sending") : KeepsResolved prev (prev.set k y) := by
  intro i x hx hs
  have hlt : i < prev.length := (List.getElem?_eq_some_iff.mp hx).1
  by_cases hik : k = i
  · subst hik
    exact ⟨y, by simp [List.getElem?_set, hlt], hy⟩
  · exact ⟨x, by simp [List.getElem?_set, hik, hx], hs⟩

theorem keepsResolved_map (prev : List Message) (f : Message → Message)
    (hf : ∀ x, x.status ≠ some "sending" → (f x).status ≠ some "sending") :
    KeepsResolved prev (prev.map f) := by
  intro i x hx hs
  exact ⟨f x, by simp [hx], hf x hs⟩

theorem reconcile_keepsResolved (B : JsBuiltins) (user : User) (n : Message)
    (prev : List Message) : KeepsResolved prev (reconcile B user n prev) := by
  unfold reconcile
  split
  · exact keepsResolved_set _ _ _ (by simp)
  · split
    · exact keepsResolved_refl _
    · dsimp only
      split
      · exact keepsResolved_set _ _ _ (by simp)
      · exact keepsResolved_append _ _

/-- C5. For every message list and every event other than `retryMessage`
(`handleNewMessage`, the REST success update, the REST failure update, the
`sendMessage` error handler, the append of a new optimistic entry), no entry
whose status before the event is not `sending` has status `sending` after
it. The updaters return a list, except the error handler, which returns one
when every entry has an `_id`. -/
theorem messagesEvent_keepsResolved (B : JsBuiltins) (user : User) (prev : List Message)
    (ev : MessagesEvent) :
    (∀ out, applyMessagesEvent B user prev ev = some out → KeepsResolved prev out) ∧
      ((∀ x ∈ prev, x._id.isSome = true) → (applyMessagesEvent B user prev ev).isSome = true) := by
  cases ev with
  | newMessage m =>
    refine ⟨?_, fun _ => rfl⟩
    intro out h
    simp only [applyMessagesEvent, Option.some.injEq] at h
    subst h
    unfold handleNewMessageMessages
    split
    · exact keepsResolved_refl _
    · split
      · exact reconcile_keepsResolved _ _ _ _
      · exact keepsResolved_refl _
  | restSuccess t sid =>
    refine ⟨?_, fun _ => rfl⟩
    intro out h
    simp only [applyMessagesEvent, Option.some.injEq] at h
    subst h
    refine keepsResolved_map _ _ ?_
    intro x hx
    split <;> simp [hx]
  | restFailure t =>
    refine ⟨?_, fun _ => rfl⟩
    intro out h
    simp only [applyMessagesEvent, Option.some.injEq] at h
    subst h
    refine keepsResolved_map _ _ ?_
    intro x hx
    split <;> simp [hx]
  | sendError =>
    constructor
    · intro out h
      simp only [applyMessagesEvent, sendErrorUpdate] at h
      split at h
      · simp only [Option.some.injEq] at h
        subst h
        refine keepsResolved_map _ _ ?_
        intro x hx
        split <;> simp [hx]
      · exact absurd h (by simp)
    · intro hall
      have : prev.all (fun msg => msg._id.isSome) = true := by
        simpa [List.all_eq_true] using hall
      simp [applyMessagesEvent, sendErrorUpdate, this]
  | optimisticSend t c now =>
    refine ⟨?_, fun _ => rfl⟩
    intro out h
    simp only [applyMessagesEvent, Option.some.injEq] at h
    subst h
    exact keepsResolved_append _ _

theorem messagesEvent_keepsResolved_witness :
    KeepsResolved [fromBob, opt1] (restFailureUpdate "temp_1" [fromBob, opt1]) ∧
      (applyMessagesEvent sampleBuiltins alice [fromBob, opt1] MessagesEvent.sendError).isSome
        = true :=
  ⟨(messagesEvent_keepsResolved sampleBuiltins alice [fromBob, opt1]
      (MessagesEvent.restFailure "temp_1")).1 _ rfl,
   (messagesEvent_keepsResolved sampleBuiltins alice [fromBob, opt1]
      MessagesEvent.sendError).2 (by decide)⟩

/-! ## `handleNewMessage`: which entry is replaced -/

theorem handleNewMessageMessages_valid (B : JsBuiltins) (user : User) (prev : List Message)
    (m : Message) (hvalid : isValidMessage (some m) = true) :
    handleNewMessageMessages B user prev (some m) =
      reconcile B user (normalizeMessage B m) prev := by
  simp [handleNewMessageMessages, hvalid]

theorem handleNewMessageMessages_invalid (B : JsBuiltins) (user : User) (prev : List Message)
    (m : Message) (hvalid : isValidMessage (some m) = false) :
    handleNewMessageMessages B user prev (some m) = prev := by
  simp [handleNewMessageMessages, hvalid]

/-- When the first `findIndex` finds index `i`, the entry at `i` is replaced. -/
theorem reconcile_of_findIdx (B : JsBuiltins) (user : User) (n : Message)
    (prev : List Message) (i : Nat)
    (h : prev.findIdx? (matchesOptimistic B n) = some i) :
    reconcile B user n prev =
      prev.set i { n with status := some "delivered", isOptimistic := false } := by
  simp [reconcile, h]

theorem correlationId_of_tempId (B : JsBuiltins) (n : Message) (tid : String)
    (h : n.tempId = some tid) (hne : tid ≠ "") : correlationId B n = tid := by
  simp [correlationId, h, truthyStr, templateStr, hne]

/-- The first index at which a predicate holds, from the entry at that index
and the failure of all earlier entries. -/
theorem findIdx?_eq_some_of_first {α : Type} (p : α → Bool) (l : List α) (i : Nat) (e : α)
    (he : l[i]? = some e) (hp : p e = true)
    (hfirst : ∀ (j : Nat) (x : α), j < i → l[j]? = some x → p x = false) :
    l.findIdx? p = some i := by
  have hlt : i < l.length := (List.getElem?_eq_some_iff.mp he).1
  have hget : l[i] = e := (List.getElem?_eq_some_iff.mp he).2
  rw [List.findIdx?_eq_some_iff_getElem]
  refine ⟨hlt, by rw [hget]; exact hp, ?_⟩
  intro j hji
  have := hfirst j (l[j]) hji (List.getElem?_eq_getElem (Nat.lt_trans hji hlt))
  simp [this]

/-- The replacement by `tempId` when it is the first match. For every
message list and every valid inbound message whose `tempId` equals the `_id`
of an entry `e` at index `i`, provided no earlier entry satisfies the
`findIndex` test (no earlier entry has that `_id` or is an optimistic entry
with the content and sender of the inbound message): `handleNewMessage`
replaces exactly `e`. The result has the same length, the entry at `i` is the normalised inbound message with status
`delivered` and `isOptimistic` false, and every other entry is unchanged at
its index. -/
theorem handleNewMessage_replaces_first_match (B : JsBuiltins) (user : User)
    (prev : List Message) (m e : Message) (i : Nat) (tid : String)
    (hvalid : isValidMessage (some m) = true)
    (htemp : m.tempId = some tid) (hne : tid ≠ "")
    (he : prev[i]? = some e) (heid : e._id = some tid)
    (hfirst : ∀ (j : Nat) (x : Message), j < i → prev[j]? = some x →
      matchesOptimistic B (normalizeMessage B m) x = false) :
    (handleNewMessageMessages B user prev (some m)).length = prev.length ∧
      (handleNewMessageMessages B user prev (some m))[i]? =
        some { normalizeMessage B m with status := some "delivered", isOptimistic := false } ∧
      ∀ j : Nat, j ≠ i → (handleNewMessageMessages B user prev (some m))[j]? = prev[j]? := by
  have hcorr : correlationId B (normalizeMessage B m) = tid :=
    correlationId_of_tempId B _ tid (by simpa [normalizeMessage] using htemp) hne
  have hp : matchesOptimistic B (normalizeMessage B m) e = true := by
    simp [matchesOptimistic, hcorr, heid]
  have hidx := findIdx?_eq_some_of_first _ prev i e he hp hfirst
  have hlt : i < prev.length := (List.getElem?_eq_some_iff.mp he).1
  rw [handleNewMessageMessages_valid B user prev m hvalid,
    reconcile_of_findIdx B user _ prev i hidx]
  refine ⟨by simp, by simp [List.getElem?_set, hlt], ?_⟩
  intro j hj
  simp [List.getElem?_set, Ne.symm hj]

theorem handleNewMessage_replaces_first_match_witness :
    (handleNewMessageMessages sampleBuiltins alice [fromBob, opt2] (some echo2)).length = 2 ∧
      (handleNewMessageMessages sampleBuiltins alice [fromBob, opt2] (some echo2))[1]? =
        some { normalizeMessage sampleBuiltins echo2 with
          status := some "delivered", isOptimistic := false } ∧
      ∀ j : Nat, j ≠ 1 →
        (handleNewMessageMessages sampleBuiltins alice [fromBob, opt2] (some echo2))[j]? =
          [fromBob, opt2][j]? :=
  handleNewMessage_replaces_first_match sampleBuiltins alice [fromBob, opt2] echo2 opt2 1
    "temp_2" (by decide) rfl (by decide) rfl rfl
    (by
      intro j x hj hx
      have h0 : j = 0 := by omega
      subst h0
      simp only [List.getElem?_cons_zero, Option.some.injEq] at hx
      subst hx
      decide)

/-- C8, the code at the failing input. The list holds two optimistic
entries of the current user with the same content, `temp_1` and then
`temp_2`; the inbound message is valid and its `tempId` is `temp_2`, the
`_id` of the entry at index 1. The `findIndex` of `handleNewMessage` stops at
index 0, whose entry passes the test on content and sender: the entry at
index 1 is not replaced and stays `sending`, and the entry at index 0, which
the claim says is unchanged, is overwritten by the inbound message. -/
theorem handleNewMessage_replaces_other_entry :
    isValidMessage (some echo2) = true ∧ echo2.tempId = opt2._id ∧
      [opt1, opt2][1]? = some opt2 ∧
      (handleNewMessageMessages sampleBuiltins alice [opt1, opt2] (some echo2))[1]? =
        some opt2 ∧
      (handleNewMessageMessages sampleBuiltins alice [opt1, opt2] (some echo2))[0]? ≠
        [opt1, opt2][0]? ∧
      (handleNewMessageMessages sampleBuiltins alice [opt1, opt2] (some echo2)).map
          (fun x => (x._id, x.status)) =
        [(some "s2", some "delivered"), (some "temp_2", some "sending")] := by
  decide

/-! ## `handleNewMessage`: duplicate delivery -/

theorem sameServerId_eq (n msg : Message) : sameServerId n msg = (msg._id == n._id) := by
  unfold sameServerId
  cases h : (msg._id == n._id) <;> simp

/-- An entry written from the message `n` is not matched again by the first
`findIndex` when `n` is not flagged optimistic and its `_id` is not its own
correlation key. -/
theorem matchesOptimistic_written (B : JsBuiltins) (n w : Message)
    (hid : w._id = n._id) (hopt : w.isOptimistic = false)
    (hkey : n._id ≠ some (correlationId B n)) : matchesOptimistic B n w = false := by
  simp [matchesOptimistic, hid, hopt, hkey]

/-- When at most one entry satisfies `p`, replacing the first such entry
leaves only entries that fail `p`, the new entry apart. -/
theorem set_first_match_others_fail {α : Type} (p : α → Bool) (x : α) :
    ∀ (l : List α) (i : Nat), l.countP p ≤ 1 → l.findIdx? p = some i →
      ∀ y ∈ l.set i x, y = x ∨ p y = false := by
  intro l
  induction l with
  | nil => intro i _ h; simp at h
  | cons a t ih =>
    intro i hc h y hy
    rw [List.findIdx?_cons] at h
    by_cases hpa : p a = true
    · simp only [hpa, if_true, Option.some.injEq] at h
      subst h
      simp only [List.set_cons_zero, List.mem_cons] at hy
      rcases hy with hy | hy
      · exact Or.inl hy
      · right
        have hc' : t.countP p = 0 := by
          rw [List.countP_cons_of_pos _ _ hpa] at hc
          omega
        rw [List.countP_eq_zero] at hc'
        simpa using hc' y hy
    · have hpa' : p a = false := by simpa using hpa
      simp only [hpa', Bool.false_eq_true, if_false] at h
      rw [List.findIdx?_succ] at h
      simp only [Option.map_eq_some'] at h
      obtain ⟨i', hi'', rfl⟩ := h
      simp only [List.set_cons_succ, List.mem_cons] at hy
      rcases hy with hy | hy
      · exact Or.inr (hy ▸ hpa')
      · have hc' : t.countP p ≤ 1 := by
          rw [List.countP_cons_of_neg _ _ hpa] at hc
          exact hc
        exact ih i' hc' hi'' y hy

theorem findIdx?_lt_length {α : Type} (p : α → Bool) (l : List α) (i : Nat)
    (h : l.findIdx? p = some i) : i < l.length := by
  rw [List.findIdx?_eq_some_iff_getElem] at h
  exact h.1

/-- A list that contains an entry written from `n`, and no entry that the
first `findIndex` matches, is left unchanged by the updater. -/
theorem reconcile_fixed (B : JsBuiltins) (user : User) (n : Message) (l : List Message)
    (hnone : ∀ y ∈ l, matchesOptimistic B n y = false)
    (hexists : ∃ w ∈ l, w._id = n._id) : reconcile B user n l = l := by
  have h1 : l.findIdx? (matchesOptimistic B n) = none :=
    List.findIdx?_eq_none_iff.mpr hnone
  have h2 : l.any (sameServerId n) = true := by
    obtain ⟨w, hw, hid⟩ := hexists
    rw [List.any_eq_true]
    exact ⟨w, hw, by simp [sameServerId_eq, hid]⟩
  simp [reconcile, h1, h2]

/-- The outcomes of the updater when the first `findIndex` finds nothing:
the list is kept, or one entry is overwritten by an entry written from `n`,
or such an entry is appended. -/
theorem reconcile_of_no_match (B : JsBuiltins) (user : User) (n : Message)
    (prev : List Message) (h1 : prev.findIdx? (matchesOptimistic B n) = none) :
    reconcile B user n prev = prev ∨
      (∃ (j : Nat) (w : Message), j < prev.length ∧ w._id = n._id ∧
        w.isOptimistic = n.isOptimistic ∧ reconcile B user n prev = prev.set j w) ∨
      (∃ w : Message, w._id = n._id ∧ w.isOptimistic = n.isOptimistic ∧
        reconcile B user n prev = prev ++ [w]) := by
  unfold reconcile
  rw [h1]
  dsimp only
  split
  · exact Or.inl rfl
  · split
    · rename_i j hj
      right; left
      refine ⟨j, _, ?_, ?_, ?_, rfl⟩
      · split at hj
        · exact findIdx?_lt_length _ prev j hj
        · exact absurd hj (by simp)
      · rfl
      · rfl
    · right; right
      refine ⟨_, ?_, ?_, rfl⟩ <;> rfl

theorem reconcile_idempotent (B : JsBuiltins) (user : User) (n : Message)
    (prev : List Message)
    (hunique : prev.countP (matchesOptimistic B n) ≤ 1)
    (hopt : n.isOptimistic = false)
    (hkey : n._id ≠ some (correlationId B n)) :
    reconcile B user n (reconcile B user n prev) = reconcile B user n prev := by
  cases h1 : prev.findIdx? (matchesOptimistic B n) with
  | some i =>
    rw [reconcile_of_findIdx B user n prev i h1]
    have hlt := findIdx?_lt_length _ prev i h1
    refine reconcile_fixed B user n _ ?_ ⟨_, List.mem_set _ _ hlt _, rfl⟩
    intro y hy
    rcases set_first_match_others_fail (matchesOptimistic B n) _ prev i hunique h1 y hy with h | h
    · rw [h]
      exact matchesOptimistic_written B n _ rfl rfl hkey
    · exact h
  | none =>
    have hnone : ∀ y ∈ prev, matchesOptimistic B n y = false :=
      List.findIdx?_eq_none_iff.mp h1
    rcases reconcile_of_no_match B user n prev h1 with hr | ⟨j, w, hlt, hid, hw, hr⟩ |
      ⟨w, hid, hw, hr⟩
    · rw [hr, hr]
    · rw [hr]
      refine reconcile_fixed B user n _ ?_ ⟨_, List.mem_set _ _ hlt _, hid⟩
      intro y hy
      rcases List.mem_or_eq_of_mem_set hy with h | h
      · exact hnone y h
      · rw [h]
        exact matchesOptimistic_written B n _ hid (hw.trans hopt) hkey
    · rw [hr]
      refine reconcile_fixed B user n _ ?_
        ⟨_, List.mem_append_right _ (List.mem_singleton.mpr rfl), hid⟩
      intro y hy
      rcases List.mem_append.mp hy with h | h
      · exact hnone y h
      · rw [List.mem_singleton.mp h]
        exact matchesOptimistic_written B n _ hid (hw.trans hopt) hkey

/-- Duplicate delivery is absorbed when at most one entry of the list
satisfies the optimistic test of the inbound message and the
message is one the server sends (not flagged optimistic, its `_id` is not its
own correlation key): applying the list update of `handleNewMessage` twice
gives the same list as applying it once. -/
theorem handleNewMessage_idempotent (B : JsBuiltins) (user : User) (prev : List Message)
    (m : Message)
    (hunique : prev.countP (matchesOptimistic B (normalizeMessage B m)) ≤ 1)
    (hopt : m.isOptimistic = false)
    (hkey : m._id ≠ some (correlationId B (normalizeMessage B m))) :
    handleNewMessageMessages B user (handleNewMessageMessages B user prev (some m)) (some m) =
      handleNewMessageMessages B user prev (some m) := by
  cases hv : isValidMessage (some m) with
  | false => simp [handleNewMessageMessages_invalid, hv]
  | true =>
    simp only [handleNewMessageMessages_valid, hv]
    exact reconcile_idempotent B user _ prev hunique (by simpa [normalizeMessage] using hopt)
      (by simpa [normalizeMessage] using hkey)

theorem handleNewMessage_idempotent_witness :
    handleNewMessageMessages sampleBuiltins alice
        (handleNewMessageMessages sampleBuiltins alice [fromBob, opt2] (some echo2))
        (some echo2) =
      handleNewMessageMessages sampleBuiltins alice [fromBob, opt2] (some echo2) :=
  handleNewMessage_idempotent sampleBuiltins alice [fromBob, opt2] echo2
    (by decide) (by decide) (by decide)

/-- C9, the code at the failing input. The list holds two optimistic
entries of the current user with the same content, `temp_1` and then
`temp_2`, and the echo of the second one (`_id` `s2`, `tempId` `temp_2`) is
delivered twice. The first delivery overwrites the entry at index 0, the
first one that passes the test of `findIndex`; the second delivery finds the
entry `temp_2` before the check for an existing `_id` is reached and
overwrites it too. The list after two deliveries differs from the list after
one and holds two entries with the `_id` `s2`. -/
theorem handleNewMessage_second_delivery_changes_list :
    isValidMessage (some echo2) = true ∧
      handleNewMessageMessages sampleBuiltins alice
          (handleNewMessageMessages sampleBuiltins alice [opt1, opt2] (some echo2))
          (some echo2) ≠
        handleNewMessageMessages sampleBuiltins alice [opt1, opt2] (some echo2) ∧
      (handleNewMessageMessages sampleBuiltins alice [opt1, opt2] (some echo2)).map
          (fun x => (x._id, x.status)) =
        [(some "s2", some "delivered"), (some "temp_2", some "sending")] ∧
      (handleNewMessageMessages sampleBuiltins alice
          (handleNewMessageMessages sampleBuiltins alice [opt1, opt2] (some echo2))
          (some echo2)).map (fun x => (x._id, x.status)) =
        [(some "s2", some "delivered"), (some "s2", some "delivered")] := by
  decide

/-! ## One entry per message -/

theorem JsVal.strictEq_str (v : JsVal) (c : String) :
    v.strictEq (JsVal.str c) = true ↔ v = JsVal.str c := by
  cases v <;> simp [JsVal.strictEq]

theorem restSuccessUpdate_fresh (T : String) (sid : Option String) (prev : List Message)
    (h : ∀ x ∈ prev, x._id ≠ some T) : restSuccessUpdate T sid prev = prev := by
  unfold restSuccessUpdate
  conv_rhs => rw [← List.map_id prev]
  apply List.map_congr_left
  intro x hx
  simp [h x hx]

theorem restSuccessUpdate_append (T : String) (sid : Option String) (l₁ l₂ : List Message) :
    restSuccessUpdate T sid (l₁ ++ l₂) =
      restSuccessUpdate T sid l₁ ++ restSuccessUpdate T sid l₂ := by
  simp [restSuccessUpdate]

theorem entriesFor_append_one (T S : String) (prev : List Message) (w : Message)
    (hfresh : ∀ x ∈ prev, x._id ≠ some T ∧ x._id ≠ some S)
    (hw : w._id = some T ∨ w._id = some S) : entriesFor T S (prev ++ [w]) = 1 := by
  have h0 : prev.countP (fun x => x._id == some T || x._id == some S) = 0 := by
    rw [List.countP_eq_zero]
    intro x hx
    simp [(hfresh x hx).1, (hfresh x hx).2]
  have h1 : (w._id == some T || w._id == some S) = true := by
    rcases hw with h | h <;> simp [h]
  simp [entriesFor, List.countP_append, h0, List.countP_cons, h1]

/-- The echo lands on the last entry of `prev ++ [last]` when the entries of
`prev` fail the optimistic test and `last` passes it. -/
theorem reconcile_append_last (B : JsBuiltins) (user : User) (n : Message)
    (prev : List Message) (last : Message)
    (hprev : ∀ x ∈ prev, matchesOptimistic B n x = false)
    (hlast : matchesOptimistic B n last = true) :
    reconcile B user n (prev ++ [last]) =
      prev ++ [{ n with status := some "delivered", isOptimistic := false }] := by
  have hidx : (prev ++ [last]).findIdx? (matchesOptimistic B n) = some prev.length := by
    refine findIdx?_eq_some_of_first _ _ _ last (List.getElem?_concat_length prev last) hlast ?_
    intro j x hj hx
    rw [List.getElem?_append_left hj] at hx
    exact hprev x (List.getElem?_mem hx)
  rw [reconcile_of_findIdx B user n _ _ hidx, List.set_append_right _ _ (Nat.le_refl _)]
  simp

/-- One entry per message when the fuzzy test has nothing else to match.
For every message list that holds no entry for the message (no `_id` equal to the temporary id `T` or to the server id `S`) and no
optimistic entry with the content and sender of the message, and for both
interleavings of the server echo (`handleNewMessage`) and the REST success
update after the optimistic send, the final list contains exactly one entry
for the message. -/
theorem one_entry_per_message (B : JsBuiltins) (user : User) (prev : List Message)
    (T S c : String) (now : Nat) (e : Message)
    (hT : T ≠ "")
    (hfresh : ∀ x ∈ prev, x._id ≠ some T ∧ x._id ≠ some S)
    (hother : ∀ x ∈ prev, ¬ (x.isOptimistic = true ∧ x.content = JsVal.str c ∧
      getSenderId x.sender = some user._id))
    (heid : e._id = some S) (hetemp : e.tempId = some T)
    (hecontent : e.content = JsVal.str c)
    (hesender : getSenderId e.sender = some user._id) :
    entriesFor T S (restSuccessUpdate T (some S)
        (handleNewMessageMessages B user (prev ++ [optimisticMessage user T c now]) (some e)))
      = 1 ∧
    entriesFor T S (handleNewMessageMessages B user
        (restSuccessUpdate T (some S) (prev ++ [optimisticMessage user T c now])) (some e))
      = 1 := by
  have hfreshT : ∀ x ∈ prev, x._id ≠ some T := fun x hx => (hfresh x hx).1
  have hn_content : (normalizeMessage B e).content = JsVal.str c := by
    simp [normalizeMessage, hecontent, normalizeContent]
  have hcorr : correlationId B (normalizeMessage B e) = T :=
    correlationId_of_tempId B _ T (by simpa [normalizeMessage] using hetemp) hT
  have hprev : ∀ x ∈ prev, matchesOptimistic B (normalizeMessage B e) x = false := by
    intro x hx
    have h1 := hfreshT x hx
    have h2 := hother x hx
    simp only [matchesOptimistic, hcorr, hn_content]
    by_cases ho : x.isOptimistic = true
    · by_cases hc : x.content = JsVal.str c
      · have hs : getSenderId x.sender ≠ some user._id := fun hs => h2 ⟨ho, hc, hs⟩
        simp [h1, normalizeMessage, hesender, hs]
      · have : x.content.strictEq (JsVal.str c) = false := by
          simpa using (JsVal.strictEq_str x.content c).not.mpr hc
        simp [h1, this]
    · simp [h1, ho]
  have hrest : restSuccessUpdate T (some S) (prev ++ [optimisticMessage user T c now]) =
      prev ++ [{ optimisticMessage user T c now with status := some "sent", _id := some S }] := by
    rw [restSuccessUpdate_append, restSuccessUpdate_fresh T _ prev hfreshT]
    simp [restSuccessUpdate, optimisticMessage]
  constructor
  · -- the echo first, the REST response second
    cases hv : isValidMessage (some e) with
    | false =>
      rw [handleNewMessageMessages_invalid B user _ e hv, hrest]
      exact entriesFor_append_one T S prev _ hfresh (Or.inr rfl)
    | true =>
      have hlast : matchesOptimistic B (normalizeMessage B e)
          (optimisticMessage user T c now) = true := by
        simp [matchesOptimistic, hcorr, optimisticMessage]
      rw [handleNewMessageMessages_valid B user _ e hv,
        reconcile_append_last B user _ prev _ hprev hlast, restSuccessUpdate_append,
        restSuccessUpdate_fresh T _ prev hfreshT]
      by_cases hST : S = T
      · subst hST
        simp only [restSuccessUpdate, List.map_cons, List.map_nil, normalizeMessage, heid,
          beq_self_eq_true, if_true]
        exact entriesFor_append_one S S prev _ hfresh (Or.inr rfl)
      · have hne : (some S == some T) = false := by simpa using hST
        simp only [restSuccessUpdate, List.map_cons, List.map_nil, normalizeMessage, heid,
          hne, Bool.false_eq_true, if_false]
        exact entriesFor_append_one T S prev _ hfresh (Or.inr rfl)
  · -- the REST response first, the echo second
    rw [hrest]
    cases hv : isValidMessage (some e) with
    | false =>
      rw [handleNewMessageMessages_invalid B user _ e hv]
      exact entriesFor_append_one T S prev _ hfresh (Or.inr rfl)
    | true =>
      have hlast : matchesOptimistic B (normalizeMessage B e)
          { optimisticMessage user T c now with status := some "sent", _id := some S }
            = true := by
        have hs : getSenderId (normalizeMessage B e).sender = some user._id := hesender
        unfold matchesOptimistic
        rw [hs, hn_content]
        simp [optimisticMessage, JsVal.strictEq, getSenderId]
      rw [handleNewMessageMessages_valid B user _ e hv,
        reconcile_append_last B user _ prev _ hprev hlast]
      exact entriesFor_append_one T S prev _ hfresh
        (Or.inr (by simp [normalizeMessage, heid]))

theorem one_entry_per_message_witness :
    entriesFor "temp_2" "s2" (restSuccessUpdate "temp_2" (some "s2")
        (handleNewMessageMessages sampleBuiltins alice
          ([fromBob] ++ [optimisticMessage alice "temp_2" "hi" 20]) (some echo2))) = 1 ∧
    entriesFor "temp_2" "s2" (handleNewMessageMessages sampleBuiltins alice
        (restSuccessUpdate "temp_2" (some "s2")
          ([fromBob] ++ [optimisticMessage alice "temp_2" "hi" 20])) (some echo2)) = 1 :=
  one_entry_per_message sampleBuiltins alice [fromBob] "temp_2" "s2" "hi" 20 echo2
    (by decide) (by decide) (by decide) rfl rfl rfl rfl

/-- C1, the code at the failing input. The list holds one optimistic entry
of the current user with the same content (an earlier send, `temp_1`) and no
entry with the ids of the message. After the optimistic send (`temp_2`), the
echo (`_id` `s2`, `tempId` `temp_2`) overwrites the entry `temp_1`, the first
one that passes the test of `findIndex`, and the REST success update then
gives the entry `temp_2` the id `s2`: the final list holds two entries for
the message, both with the server id. -/
theorem two_entries_after_echo_then_rest :
    (∀ x ∈ [opt1], x._id ≠ some "temp_2" ∧ x._id ≠ some "s2") ∧
      [opt1] ++ [optimisticMessage alice "temp_2" "hi" 20] = [opt1, opt2] ∧
      entriesFor "temp_2" "s2" (restSuccessUpdate "temp_2" (some "s2")
        (handleNewMessageMessages sampleBuiltins alice
          ([opt1] ++ [optimisticMessage alice "temp_2" "hi" 20]) (some echo2))) = 2 ∧
      (restSuccessUpdate "temp_2" (some "s2")
        (handleNewMessageMessages sampleBuiltins alice
          ([opt1] ++ [optimisticMessage alice "temp_2" "hi" 20]) (some echo2))).map
          (fun x => (x._id, x.status)) =
        [(some "s2", some "delivered"), (some "s2", some "sent")] := by
  decide

/-! ## Display order -/

/-- C2, amended. For every message list sorted by `createdAt` ascending and
every valid inbound message that matches no optimistic entry of the list,
the list produced by `handleNewMessage` is sorted exactly when the message
is discarded as a duplicate (its `_id` is in the list) or its `createdAt` is
not earlier than that of any entry: a new message is appended at the end,
whatever its timestamp. -/
theorem handleNewMessage_sorted_iff (B : JsBuiltins) (user : User) (prev : List Message)
    (m : Message) (hsorted : SortedByCreatedAt prev)
    (hvalid : isValidMessage (some m) = true)
    (hno : ∀ x ∈ prev, matchesOptimistic B (normalizeMessage B m) x = false)
    (hnoOwn : ∀ x ∈ prev, matchesOwnOptimistic (normalizeMessage B m) x = false) :
    SortedByCreatedAt (handleNewMessageMessages B user prev (some m)) ↔
      ((∃ x ∈ prev, x._id = m._id) ∨ ∀ x ∈ prev, createdLe x m) := by
  have h1 : prev.findIdx? (matchesOptimistic B (normalizeMessage B m)) = none :=
    List.findIdx?_eq_none_iff.mpr hno
  have h2 : prev.findIdx? (matchesOwnOptimistic (normalizeMessage B m)) = none :=
    List.findIdx?_eq_none_iff.mpr hnoOwn
  rw [handleNewMessageMessages_valid B user prev m hvalid]
  by_cases hdup : prev.any (sameServerId (normalizeMessage B m)) = true
  · have hr : reconcile B user (normalizeMessage B m) prev = prev := by
      simp [reconcile, h1, hdup]
    rw [hr]
    refine ⟨fun _ => Or.inl ?_, fun _ => hsorted⟩
    rw [List.any_eq_true] at hdup
    obtain ⟨x, hx, hid⟩ := hdup
    exact ⟨x, hx, by simpa [sameServerId_eq, normalizeMessage] using hid⟩
  · have hnodup : ¬ ∃ x ∈ prev, x._id = m._id := by
      rintro ⟨x, hx, hid⟩
      apply hdup
      rw [List.any_eq_true]
      exact ⟨x, hx, by simp [sameServerId_eq, normalizeMessage, hid]⟩
    have hr : ∃ w : Message, reconcile B user (normalizeMessage B m) prev = prev ++ [w] ∧
        w.createdAt = m.createdAt := by
      simp only [reconcile, h1, hdup, h2, ite_self, Bool.false_eq_true, if_false]
      exact ⟨_, rfl, rfl⟩
    obtain ⟨w, hr, hw⟩ := hr
    rw [hr]
    have hle : ∀ x : Message, createdLe x w ↔ createdLe x m := by
      intro x
      simp [createdLe, hw]
    unfold SortedByCreatedAt
    rw [List.pairwise_append]
    constructor
    · rintro ⟨_, _, h⟩
      exact Or.inr fun x hx => (hle x).mp (h x hx w (List.mem_singleton.mpr rfl))
    · rintro (h | h)
      · exact absurd h hnodup
      · refine ⟨hsorted, List.pairwise_singleton _ _, ?_⟩
        intro x hx y hy
        rw [List.mem_singleton.mp hy]
        exact (hle x).mpr (h x hx)

theorem handleNewMessage_sorted_iff_witness :
    SortedByCreatedAt (handleNewMessageMessages sampleBuiltins alice [fromBob]
        (some inOrderArrival)) ↔
      ((∃ x ∈ [fromBob], x._id = inOrderArrival._id) ∨
        ∀ x ∈ [fromBob], createdLe x inOrderArrival) :=
  handleNewMessage_sorted_iff sampleBuiltins alice [fromBob] inOrderArrival
    (by decide) (by decide) (by decide) (by decide)

/-- C2, counterexample. The list is sorted and the inbound message is
valid, but it is older than the last entry: it is appended after it and the
result is not sorted. -/
theorem handleNewMessage_appends_out_of_order :
    SortedByCreatedAt [fromBob] ∧ isValidMessage (some lateArrival) = true ∧
      ¬ SortedByCreatedAt
        (handleNewMessageMessages sampleBuiltins alice [fromBob] (some lateArrival)) := by
  decide

/-! ## The REST fallback -/

theorem runPage_cons (B : JsBuiltins) (user : User) (s : ChatPage) (ev : PageEvent)
    (es : List PageEvent) :
    runPage B user s (ev :: es) = runPage B user (stepPage B user s ev) es := rfl

theorem runPage_now (B : JsBuiltins) (user : User) (es : List PageEvent) :
    ∀ s : ChatPage, (runPage B user s es).now = s.now + elapsed es := by
  induction es with
  | nil => intro s; simp [runPage, elapsed]
  | cons ev es ih =>
    intro s
    rw [runPage_cons, ih]
    cases ev <;> simp [stepPage, handleNewMessage, LocalTreasures.elapse, elapsed]
    omega

theorem restCallsFor_elapse (T : String) (ms : Nat) (s : ChatPage) :
    restCallsFor T (elapse ms s) = restCallsFor T s +
      s.timers.countP (fun t => t.2.tempId == T && decide (t.1 ≤ s.now + ms)) := by
  simp only [restCallsFor, LocalTreasures.elapse, List.countP_append, List.countP_map,
    List.countP_filter]
  rfl

theorem pendingFor_elapse (T : String) (ms : Nat) (s : ChatPage) :
    pendingFor T (elapse ms s) =
      s.timers.countP (fun t => t.2.tempId == T && !decide (t.1 ≤ s.now + ms)) := by
  simp only [pendingFor, LocalTreasures.elapse, List.countP_filter]

/-- A page without a pending timer for the message makes no further REST
call for it, whatever happens. -/
theorem runPage_no_pending (B : JsBuiltins) (user : User) (T : String)
    (es : List PageEvent) :
    ∀ s : ChatPage, pendingFor T s = 0 →
      restCallsFor T (runPage B user s es) = restCallsFor T s := by
  induction es with
  | nil => intro s _; rfl
  | cons ev es ih =>
    intro s hp
    rw [runPage_cons]
    cases ev with
    | newMessage m => exact ih _ hp
    | restSuccess t sid => exact ih _ hp
    | restFailure t => exact ih _ hp
    | elapse ms =>
      have hnone : ∀ t ∈ s.timers, ¬ (t.2.tempId == T) = true := by
        simpa [pendingFor] using hp
      have h1 : restCallsFor T (elapse ms s) = restCallsFor T s := by
        rw [restCallsFor_elapse]
        have : s.timers.countP (fun t => t.2.tempId == T && decide (t.1 ≤ s.now + ms)) = 0 := by
          rw [List.countP_eq_zero]
          intro t ht
          simp [hnone t ht]
        omega
      have h2 : pendingFor T (elapse ms s) = 0 := by
        rw [pendingFor_elapse, List.countP_eq_zero]
        intro t ht
        simp [hnone t ht]
      show restCallsFor T (runPage B user (elapse ms s) es) = restCallsFor T s
      rw [ih _ h2, h1]

theorem fallbackArmed_step (B : JsBuiltins) (user : User) (T : String) (due : Nat)
    (s : ChatPage) (ev : PageEvent) (h : FallbackArmed T due s) :
    FallbackArmed T due (stepPage B user s ev) := by
  cases ev with
  | newMessage m => exact h
  | restSuccess t sid => exact h
  | restFailure t => exact h
  | elapse ms =>
    obtain ⟨hdue, hstate⟩ := h
    show FallbackArmed T due (elapse ms s)
    have hnow : (elapse ms s).now = s.now + ms := rfl
    refine ⟨?_, ?_⟩
    · intro t ht hT
      have : t ∈ s.timers := by
        simp only [LocalTreasures.elapse, List.mem_filter] at ht
        exact ht.1
      exact hdue t this hT
    · rw [restCallsFor_elapse, pendingFor_elapse, hnow]
      by_cases hfire : due ≤ s.now + ms
      · have hfired : s.timers.countP (fun t => t.2.tempId == T && decide (t.1 ≤ s.now + ms))
            = pendingFor T s := by
          unfold pendingFor
          apply List.countP_congr
          intro t ht
          constructor
          · intro hx
            simp only [Bool.and_eq_true] at hx
            exact hx.1
          · intro hx
            have hT : t.2.tempId = T := by simpa using hx
            have := hdue t ht hT
            simp [hT, this, hfire]
        have hleft : s.timers.countP (fun t => t.2.tempId == T && !decide (t.1 ≤ s.now + ms))
            = 0 := by
          rw [List.countP_eq_zero]
          intro t ht hx
          simp only [Bool.and_eq_true, Bool.not_eq_true', decide_eq_false_iff_not] at hx
          have hT : t.2.tempId = T := by simpa using hx.1
          exact hx.2 (hdue t ht hT ▸ hfire)
        rw [hfired, hleft]
        right
        rcases hstate with ⟨h0, h1, _⟩ | ⟨h0, h1, _⟩
        · exact ⟨by omega, rfl, hfire⟩
        · exact ⟨by omega, rfl, hfire⟩
      · have hfired : s.timers.countP (fun t => t.2.tempId == T && decide (t.1 ≤ s.now + ms))
            = 0 := by
          rw [List.countP_eq_zero]
          intro t ht hx
          simp only [Bool.and_eq_true, decide_eq_true_eq] at hx
          have hT : t.2.tempId = T := by simpa using hx.1
          exact hfire (hdue t ht hT ▸ hx.2)
        have hleft : s.timers.countP (fun t => t.2.tempId == T && !decide (t.1 ≤ s.now + ms))
            = pendingFor T s := by
          unfold pendingFor
          apply List.countP_congr
          intro t ht
          constructor
          · intro hx
            simp only [Bool.and_eq_true] at hx
            exact hx.1
          · intro hx
            have hT : t.2.tempId = T := by simpa using hx
            have := hdue t ht hT
            simp [hT, this, hfire]
        rw [hfired, hleft]
        rcases hstate with ⟨h0, h1, h2⟩ | ⟨h0, h1, h2⟩
        · left
          exact ⟨by omega, h1, by omega⟩
        · exact absurd (Nat.le_trans h2 (Nat.le_add_right _ _)) hfire

theorem fallbackArmed_run (B : JsBuiltins) (user : User) (T : String) (due : Nat)
    (es : List PageEvent) :
    ∀ s : ChatPage, FallbackArmed T due s → FallbackArmed T due (runPage B user s es) := by
  induction es with
  | nil => intro s h; exact h
  | cons ev es ih =>
    intro s h
    rw [runPage_cons]
    exact ih _ (fallbackArmed_step B user T due s ev h)

/-- The clock is not moved by `sendMessage`. -/
theorem sendMessage_now (user : User) (connected : Bool) (fault : SendFault) (rand : String)
    (s : ChatPage) : (sendMessage user connected fault rand s).now = s.now := by
  unfold sendMessage
  cases s.selectedChat with
  | none => rfl
  | some chat =>
    dsimp only
    split
    · rfl
    · split
      · rfl
      · split <;> rfl

/-- The REST calls logged by `sendMessage`: one more, at once, exactly when
the socket is not connected. -/
theorem sendMessage_restCalls (user : User) (connected : Bool) (fault : SendFault)
    (rand : String) (s : ChatPage) (chat : Conversation)
    (hsel : s.selectedChat = some chat) (htext : jsTrim s.newMessage ≠ "") :
    (sendMessage user connected fault rand s).restCalls =
      if connected then s.restCalls
      else s.restCalls ++
        [{ chatId := chat._id, content := jsTrim s.newMessage, tempId := mkTempId s.now rand }] := by
  have htext' : (jsTrim s.newMessage == "") = false := by simpa using htext
  cases connected <;> cases fault <;> cases hty : s.isTyping <;>
    simp [sendMessage, hsel, htext', hty]

/-- The timers armed by `sendMessage`: one more, due in 3000 ms, exactly when
the socket is connected and `socketService.sendMessage` returns. -/
theorem sendMessage_timers (user : User) (connected : Bool) (fault : SendFault)
    (rand : String) (s : ChatPage) (chat : Conversation)
    (hsel : s.selectedChat = some chat) (htext : jsTrim s.newMessage ≠ "") :
    (sendMessage user connected fault rand s).timers =
      if connected && fault != SendFault.atSendMessage then
        s.timers ++ [(s.now + 3000,
          { chatId := chat._id, content := jsTrim s.newMessage, tempId := mkTempId s.now rand })]
      else s.timers := by
  have htext' : (jsTrim s.newMessage == "") = false := by simpa using htext
  cases connected <;> cases fault <;> cases hty : s.isTyping <;>
    simp [sendMessage, hsel, htext', hty]

/-- C6, amended. For every call of `sendMessage` with non-blank text and a
selected chat, for a temporary id that is fresh (no REST call and no timer
for it yet), whatever arrives afterwards and in particular when no
confirmation arrives: the REST call `chatService.sendMessage` is never issued
more than once for the message; it is issued once at once when the socket was
not connected; when the socket was connected and `socketService.sendMessage`
returned, it is not issued before 3000 ms have passed and it is issued
exactly once when they have; when the socket was connected and
`socketService.sendMessage` threw, no timer is armed and the call is never
issued. -/
theorem sendMessage_rest_call_exactly_once (B : JsBuiltins) (user : User) (s : ChatPage)
    (chat : Conversation) (rand : String) (connected : Bool) (fault : SendFault)
    (es : List PageEvent)
    (hsel : s.selectedChat = some chat) (htext : jsTrim s.newMessage ≠ "")
    (hcalls : restCallsFor (mkTempId s.now rand) s = 0)
    (hpending : pendingFor (mkTempId s.now rand) s = 0) :
    restCallsFor (mkTempId s.now rand)
        (runPage B user (sendMessage user connected fault rand s) es) ≤ 1 ∧
      (connected = false → restCallsFor (mkTempId s.now rand)
        (runPage B user (sendMessage user connected fault rand s) es) = 1) ∧
      (connected = true → fault ≠ SendFault.atSendMessage → elapsed es < 3000 →
        restCallsFor (mkTempId s.now rand)
          (runPage B user (sendMessage user connected fault rand s) es) = 0) ∧
      (connected = true → fault ≠ SendFault.atSendMessage → 3000 ≤ elapsed es →
        restCallsFor (mkTempId s.now rand)
          (runPage B user (sendMessage user connected fault rand s) es) = 1) ∧
      (connected = true → fault = SendFault.atSendMessage →
        pendingFor (mkTempId s.now rand) (sendMessage user connected fault rand s) = 0 ∧
        restCallsFor (mkTempId s.now rand)
          (runPage B user (sendMessage user connected fault rand s) es) = 0) := by
  have hnone : ∀ t ∈ s.timers, ¬ (t.2.tempId == mkTempId s.now rand) = true := by
    simpa [pendingFor] using hpending
  have h0c : s.restCalls.countP (fun c => c.tempId == mkTempId s.now rand) = 0 := hcalls
  have h0t : s.timers.countP (fun t => t.2.tempId == mkTempId s.now rand) = 0 := hpending
  have hR := sendMessage_restCalls user connected fault rand s chat hsel htext
  have hT := sendMessage_timers user connected fault rand s chat hsel htext
  cases connected with
  | false =>
    have hp : pendingFor (mkTempId s.now rand)
        (sendMessage user false fault rand s) = 0 := by
      simp only [pendingFor, hT]
      simpa using h0t
    have hc : restCallsFor (mkTempId s.now rand)
        (sendMessage user false fault rand s) = 1 := by
      simp only [restCallsFor, hR]
      simp [List.countP_append, h0c]
    rw [runPage_no_pending B user _ es _ hp, hc]
    simp
  | true =>
    by_cases hf : fault = SendFault.atSendMessage
    · have hp : pendingFor (mkTempId s.now rand)
          (sendMessage user true fault rand s) = 0 := by
        simp only [pendingFor, hT]
        simpa [hf] using h0t
      have hc : restCallsFor (mkTempId s.now rand)
          (sendMessage user true fault rand s) = 0 := by
        simp only [restCallsFor, hR]
        simpa using h0c
      rw [runPage_no_pending B user _ es _ hp, hc]
      exact ⟨by omega, fun h => absurd h (by simp), fun _ h => absurd hf h,
        fun _ h => absurd hf h, fun _ _ => ⟨hp, rfl⟩⟩
    · have hcond : (true && fault != SendFault.atSendMessage) = true := by simpa using hf
      rw [hcond, if_pos rfl] at hT
      rw [if_pos rfl] at hR
      have harmed : FallbackArmed (mkTempId s.now rand) (s.now + 3000)
          (sendMessage user true fault rand s) := by
        refine ⟨?_, Or.inl ⟨?_, ?_, ?_⟩⟩
        · intro t ht hTid
          rw [hT] at ht
          simp only [List.mem_append, List.mem_singleton] at ht
          rcases ht with ht | ht
          · exact absurd (by simpa using hTid) (hnone t ht)
          · rw [ht]
        · simp only [restCallsFor, hR]
          exact h0c
        · simp only [pendingFor, hT]
          simp [List.countP_append, h0t]
        · rw [sendMessage_now]
          omega
      have hrun := fallbackArmed_run B user _ _ es _ harmed
      have hnow : (runPage B user (sendMessage user true fault rand s) es).now =
          s.now + elapsed es := by
        rw [runPage_now, sendMessage_now]
      obtain ⟨_, hstate⟩ := hrun
      rw [hnow] at hstate
      refine ⟨?_, ?_, ?_, ?_, ?_⟩
      · rcases hstate with ⟨h, _, _⟩ | ⟨h, _, _⟩ <;> omega
      · intro h; exact absurd h (by simp)
      · intro _ _ hlt
        rcases hstate with ⟨h, _, _⟩ | ⟨_, _, h⟩
        · exact h
        · omega
      · intro _ _ hge
        rcases hstate with ⟨_, _, h⟩ | ⟨h, _, _⟩
        · omega
        · exact h
      · intro _ h; exact absurd h hf

theorem sendMessage_rest_call_exactly_once_witness :
    restCallsFor "temp_0_0.5" (runPage sampleBuiltins alice
        (sendMessage alice true SendFault.noFault "0.5" composingPage)
        [PageEvent.elapse 1000, PageEvent.elapse 2500]) = 1 ∧
      restCallsFor "temp_0_0.5" (runPage sampleBuiltins alice
        (sendMessage alice false SendFault.noFault "0.5" composingPage)
        [PageEvent.elapse 4000]) = 1 :=
  ⟨(sendMessage_rest_call_exactly_once sampleBuiltins alice composingPage sampleConversation
      "0.5" true SendFault.noFault [PageEvent.elapse 1000, PageEvent.elapse 2500] rfl
      (by decide) (by decide) (by decide)).2.2.2.1 rfl (by decide) (by decide),
   (sendMessage_rest_call_exactly_once sampleBuiltins alice composingPage sampleConversation
      "0.5" false SendFault.noFault [PageEvent.elapse 4000] rfl (by decide) (by decide)
      (by decide)).2.1 rfl⟩

/-- C6, counterexample. A message is sent over a connected socket and
`socketService.sendMessage` throws. The `catch` block marks the optimistic
entry as failed; no timer is armed and no REST call is made at the send, and
after four seconds without a confirmation there is still no REST call for the
message. -/
theorem sendMessage_throw_makes_no_rest_call :
    jsTrim composingPage.newMessage = "hi" ∧
      composingPage.selectedChat = some sampleConversation ∧
      (sendMessage alice true SendFault.atSendMessage "0.5" composingPage).messages.map
          (fun x => (x._id, x.status)) = [(some "temp_0_0.5", some "failed")] ∧
      (sendMessage alice true SendFault.atSendMessage "0.5" composingPage).timers = [] ∧
      restCallsFor "temp_0_0.5" (runPage sampleBuiltins alice
        (sendMessage alice true SendFault.atSendMessage "0.5" composingPage)
        [PageEvent.elapse 4000]) = 0 := by
  decide

/-- C7, the code at the failing input. A message is sent over a connected
socket; one second later its echo is handled and resolves the optimistic
entry to `delivered`. The timer is still pending after the echo, and when
the three seconds have passed it fires and the REST call is made. -/
theorem timer_fires_after_confirmation :
    mkTempId composingPage.now "0.5" = "temp_0_0.5" ∧
      pageAfterEcho.messages.map (fun x => (x._id, x.status)) =
        [(some "s1", some "delivered")] ∧
      pendingFor "temp_0_0.5" pageAfterEcho = 1 ∧
      restCallsFor "temp_0_0.5" pageAfterEcho = 0 ∧
      restCallsFor "temp_0_0.5" (elapse 2000 pageAfterEcho) = 1 := by
  decide

/-! ## Unread count of the selected conversation -/

/-- C4, the code at the failing input. The inbound message of another user
is for the conversation that is selected; its `unreadCount` goes from 0 to
1. The update does not read `selectedChat` at all. -/
theorem handleNewMessage_bumps_selected_chat :
    composingPage.selectedChat = some sampleConversation ∧
      toSelectedChat.chatId = some sampleConversation._id ∧
      isValidMessage (some toSelectedChat) = true ∧
      (handleNewMessage sampleBuiltins alice composingPage (some toSelectedChat)).conversations.map
          (fun c => (c._id, c.unreadCount)) = [("c1", 1)] ∧
      ∀ (s : ChatPage) (sel : Option Conversation),
        (handleNewMessage sampleBuiltins alice { s with selectedChat := sel }
            (some toSelectedChat)).conversations =
          (handleNewMessage sampleBuiltins alice s (some toSelectedChat)).conversations :=
  ⟨rfl, rfl, by decide, by decide, fun _ _ => rfl⟩

/-! ## Content normalisation -/

/-- C10, the code at the failing input. The content is an object whose
`text` is the number 42: `content.text || ...` yields the number, and the
content stored by `handleNewMessage`, and by the load of `selectChat`, is
that number, not a string. -/
theorem content_not_string_after_normalisation (B : JsBuiltins) (user : User) :
    isValidMessage (some structuredPayload) = true ∧
      isLoadable structuredPayload = true ∧
      (handleNewMessageMessages B user [] (some structuredPayload)).map (fun x => x.content)
        = [JsVal.num 42] ∧
      (validMessages B [structuredPayload]).map (fun x => x.content) = [JsVal.num 42] ∧
      (JsVal.num 42).isString = false := by
  refine ⟨by decide, by decide, ?_, ?_, rfl⟩
  · simp [handleNewMessageMessages, isValidMessage, structuredPayload, truthyStr, truthySender,
      JsVal.truthy, reconcile, normalizeMessage, normalizeContent]
  · simp [validMessages, isLoadable, structuredPayload, truthyStr, truthySender,
      JsVal.truthy, normalizeMessage, normalizeContent]

/-! ## Malformed payloads -/

/-- C11. For every inbound payload that is null or lacks one of the
required fields `_id`, `sender` or `content`, `handleNewMessage` (a total
function: it does not fail) leaves both the message list and the
conversations list unchanged; the whole page state is unchanged. -/
theorem handleNewMessage_drops_malformed (B : JsBuiltins) (user : User) (s : ChatPage)
    (message : Option Message)
    (h : message = none ∨ ∃ m, message = some m ∧
      (m._id = none ∨ m.sender = none ∨ m.content = JsVal.undefined)) :
    (handleNewMessage B user s message).messages = s.messages ∧
      (handleNewMessage B user s message).conversations = s.conversations ∧
      handleNewMessage B user s message = s := by
  have hinvalid : isValidMessage message = false := by
    rcases h with h | ⟨m, hm, h | h | h⟩
    · rw [h]; rfl
    · rw [hm]; simp [isValidMessage, h, truthyStr]
    · rw [hm]; simp [isValidMessage, h, truthySender]
    · rw [hm]; simp [isValidMessage, h, JsVal.truthy]
  have hm : handleNewMessageMessages B user s.messages message = s.messages := by
    cases message with
    | none => rfl
    | some m => simp [handleNewMessageMessages, hinvalid]
  have hc : handleNewMessageConversations B user s.conversations message = s.conversations := by
    cases message with
    | none => rfl
    | some m => simp [handleNewMessageConversations, hinvalid]
  refine ⟨hm, hc, ?_⟩
  simp only [handleNewMessage, hm, hc]

theorem handleNewMessage_drops_malformed_witness :
    (handleNewMessage sampleBuiltins alice composingPage (some senderless)).messages =
        composingPage.messages ∧
      (handleNewMessage sampleBuiltins alice composingPage (some senderless)).conversations =
        composingPage.conversations ∧
      handleNewMessage sampleBuiltins alice composingPage (some senderless) = composingPage :=
  handleNewMessage_drops_malformed sampleBuiltins alice composingPage (some senderless)
    (Or.inr ⟨senderless, rfl, Or.inr (Or.inl rfl)⟩)

/-! ## The payload of the REST call -/

/-- C12, the code at the failing input. The call that `sendViaAPI` makes
carries the temporary id `temp_0_0.5` in the message object; the payload
that `chatService.sendMessage` posts has the properties `content`,
`messageType` and `attachments` and no `tempId`. No call of
`chatService.sendMessage` posts a `tempId`. -/
theorem rest_payload_drops_tempId :
    sampleRestCall.tempId = "temp_0_0.5" ∧
      (sendViaAPIPost sampleRestCall).payload.map Prod.fst =
        ["content", "messageType", "attachments"] ∧
      (sendViaAPIPost sampleRestCall).payload.lookup "tempId" = none ∧
      ∀ (chatId : String) (messageData : MessageData) (messageType : String)
        (attachments : List String),
        (chatServiceSendMessage chatId messageData messageType attachments).payload.lookup
          "tempId" = none := by
  refine ⟨rfl, by decide, by decide, ?_⟩
  intro chatId messageData messageType attachments
  cases messageData <;> simp [chatServiceSendMessage, List.lookup]

/-! ## The REST updates of `sendViaAPI` -/

/-- C15. For every message list and temporary id `T`: the REST success
update changes every entry whose `_id` is `T` to status `sent` with the id
of the response, the REST failure update changes it to status `failed` with
a retry handle; every entry whose `_id` is not `T` is unchanged at its
index, and the length of the list is unchanged. -/
theorem restUpdates_frame (T : String) (S : Option String) (prev : List Message) :
    (restSuccessUpdate T S prev).length = prev.length ∧
      (restFailureUpdate T prev).length = prev.length ∧
      ∀ (i : Nat) (x : Message), prev[i]? = some x →
        (x._id = some T →
          (restSuccessUpdate T S prev)[i]? = some { x with status := some "sent", _id := S } ∧
          (restFailureUpdate T prev)[i]? =
            some { x with status := some "failed", retry := true }) ∧
        (x._id ≠ some T →
          (restSuccessUpdate T S prev)[i]? = some x ∧
          (restFailureUpdate T prev)[i]? = some x) := by
  refine ⟨by simp [restSuccessUpdate], by simp [restFailureUpdate], ?_⟩
  intro i x hx
  constructor
  · intro hid
    simp [restSuccessUpdate, restFailureUpdate, hx, hid]
  · intro hid
    simp [restSuccessUpdate, restFailureUpdate, hx, hid]

/-! ## The outcomes of `handleNewMessage` and the optimistic flag -/

/-- The four outcomes of the updater of `handleNewMessage`: the first
`findIndex` finds an entry, which is overwritten; or the list is kept; or,
for a message of the current user, the second `findIndex` finds an entry,
which is overwritten; or the message is appended. -/
theorem reconcile_outcome (B : JsBuiltins) (user : User) (n : Message) (prev : List Message) :
    (∃ k, prev.findIdx? (matchesOptimistic B n) = some k ∧
        reconcile B user n prev =
          prev.set k { n with status := some "delivered", isOptimistic := false }) ∨
      (prev.findIdx? (matchesOptimistic B n) = none ∧ reconcile B user n prev = prev) ∨
      (∃ j, prev.findIdx? (matchesOptimistic B n) = none ∧
        getSenderId n.sender = some user._id ∧
        prev.findIdx? (matchesOwnOptimistic n) = some j ∧
        reconcile B user n prev = prev.set j { n with status := some "delivered" }) ∨
      (prev.findIdx? (matchesOptimistic B n) = none ∧
        reconcile B user n prev = prev ++ [appendedEntry user n]) := by
  cases h1 : prev.findIdx? (matchesOptimistic B n) with
  | some k => exact Or.inl ⟨k, rfl, reconcile_of_findIdx B user n prev k h1⟩
  | none =>
    right
    by_cases h2 : prev.any (sameServerId n) = true
    · left
      exact ⟨rfl, by simp [reconcile, h1, h2]⟩
    · right
      by_cases hown : getSenderId n.sender = some user._id
      · cases h3 : prev.findIdx? (matchesOwnOptimistic n) with
        | some j =>
          left
          refine ⟨j, rfl, hown, rfl, ?_⟩
          simp [reconcile, h1, h2, hown, h3]
        | none =>
          right
          refine ⟨rfl, ?_⟩
          simp [reconcile, h1, h2, hown, h3, appendedEntry]
      · right
        refine ⟨rfl, ?_⟩
        simp [reconcile, h1, h2, hown, appendedEntry]

/-- An entry of `l.set k w` that differs from the entry of `l` at the same
index is `w`, at index `k`. -/
theorem changed_entry_of_set {α : Type} (l : List α) (k i : Nat) (w x y : α)
    (hx : l[i]? = some x) (hy : (l.set k w)[i]? = some y) (hne : y ≠ x) :
    i = k ∧ y = w := by
  have hlt : i < l.length := (List.getElem?_eq_some_iff.mp hx).1
  by_cases hik : k = i
  · subst hik
    simp [List.getElem?_set, hlt] at hy
    exact ⟨rfl, hy.symm⟩
  · simp [List.getElem?_set, hik, hx] at hy
    exact absurd hy.symm hne

/-- The flag after a resolution. After any replacement done by
`handleNewMessage` for a valid inbound message that is not itself flagged optimistic, the replacing
entry has status `delivered` and `isOptimistic` not true. The REST success
updates of `sendViaAPI` and of `retryMessage` set the status and the id and
leave `isOptimistic` as it was: an optimistic entry stays flagged when it
becomes `sent`. -/
theorem isOptimistic_after_resolution (B : JsBuiltins) (user : User) (prev : List Message)
    (m : Message) (T : String) (S failedId : Option String)
    (hvalid : isValidMessage (some m) = true) (hserver : m.isOptimistic = false) :
    (∀ (i : Nat) (x y : Message), prev[i]? = some x →
        (handleNewMessageMessages B user prev (some m))[i]? = some y → y ≠ x →
        y.isOptimistic = false ∧ y.status = some "delivered") ∧
      (∀ (i : Nat) (x : Message), prev[i]? = some x →
        ∃ y, (restSuccessUpdate T S prev)[i]? = some y ∧ y.isOptimistic = x.isOptimistic) ∧
      (∀ (i : Nat) (x : Message), prev[i]? = some x →
        ∃ y, (retrySuccessUpdate failedId S prev)[i]? = some y ∧
          y.isOptimistic = x.isOptimistic) := by
  refine ⟨?_, ?_, ?_⟩
  · intro i x y hx hy hne
    rw [handleNewMessageMessages_valid B user prev m hvalid] at hy
    have hlt : i < prev.length := (List.getElem?_eq_some_iff.mp hx).1
    rcases reconcile_outcome B user (normalizeMessage B m) prev with
      ⟨k, _, hr⟩ | ⟨_, hr⟩ | ⟨j, _, _, _, hr⟩ | ⟨_, hr⟩
    · rw [hr] at hy
      obtain ⟨_, hw⟩ := changed_entry_of_set prev k i _ x y hx hy hne
      rw [hw]
      exact ⟨rfl, rfl⟩
    · rw [hr, hx] at hy
      exact absurd (Option.some.inj hy).symm hne
    · rw [hr] at hy
      obtain ⟨_, hw⟩ := changed_entry_of_set prev j i _ x y hx hy hne
      rw [hw]
      exact ⟨by simpa [normalizeMessage] using hserver, rfl⟩
    · rw [hr, List.getElem?_append_left hlt, hx] at hy
      exact absurd (Option.some.inj hy).symm hne
  · intro i x hx
    by_cases hid : x._id = some T
    · exact ⟨{ x with status := some "sent", _id := S },
        by simp [restSuccessUpdate, hx, hid], rfl⟩
    · exact ⟨x, by simp [restSuccessUpdate, hx, hid], rfl⟩
  · intro i x hx
    by_cases hid : x._id = failedId
    · exact ⟨{ x with status := some "sent", _id := S },
        by simp [retrySuccessUpdate, hx, hid], rfl⟩
    · exact ⟨x, by simp [retrySuccessUpdate, hx, hid], rfl⟩

theorem isOptimistic_after_resolution_witness :
    (∀ (i : Nat) (x y : Message), [fromBob, opt2][i]? = some x →
        (handleNewMessageMessages sampleBuiltins alice [fromBob, opt2] (some echo2))[i]? = some y →
        y ≠ x → y.isOptimistic = false ∧ y.status = some "delivered") ∧
      (∀ (i : Nat) (x : Message), [fromBob, opt2][i]? = some x →
        ∃ y, (restSuccessUpdate "temp_2" (some "s2") [fromBob, opt2])[i]? = some y ∧
          y.isOptimistic = x.isOptimistic) ∧
      (∀ (i : Nat) (x : Message), [fromBob, opt2][i]? = some x →
        ∃ y, (retrySuccessUpdate (some "temp_2") (some "s2") [fromBob, opt2])[i]? = some y ∧
          y.isOptimistic = x.isOptimistic) :=
  isOptimistic_after_resolution sampleBuiltins alice [fromBob, opt2] echo2 "temp_2"
    (some "s2") (some "temp_2") (by decide) (by decide)

/-- C14, the code at the failing input. The list holds the optimistic
entry `temp_2` (`sending`, `isOptimistic` true). The REST success update of
`sendViaAPI` with the response id `s2`, and likewise the one of
`retryMessage`, resolves it to status `sent` with the server id, and the
resolved entry still has `isOptimistic` true; the replacement done by
`handleNewMessage` for the echo of the same entry gives `isOptimistic`
false. -/
theorem isOptimistic_kept_by_rest_success :
    restSuccessUpdate "temp_2" (some "s2") [opt2] =
        [{ opt2 with status := some "sent", _id := some "s2" }] ∧
      retrySuccessUpdate (some "temp_2") (some "s2") [opt2] =
        [{ opt2 with status := some "sent", _id := some "s2" }] ∧
      ({ opt2 with status := some "sent", _id := some "s2" } : Message).isOptimistic = true ∧
      (handleNewMessageMessages sampleBuiltins alice [opt2] (some echo2)).map
          (fun x => (x._id, x.status, x.isOptimistic)) =
        [(some "s2", some "delivered", false)] := by
  decide

/-! ## `retryMessage` -/

/-- C16. For every entry `f` and every message list, with a selected chat:
`retryMessage(f)` first sets the status of the entries with the id of `f`
to `sending` without changing their content or id; the REST call, and the
socket send that follows a success, are made with the content of `f` and the
id of `f` as `tempId`; the entry ends as `sent` with the server id when the
REST call succeeds and as `failed` when it fails; every entry with another
id is unchanged throughout. -/
theorem retryMessage_restarts_delivery (chat : Conversation) (f : Message)
    (prev : List Message) (S : Option String) :
    ∃ ok ko : RetryRun,
      retryMessage (some chat) (some f) (RestOutcome.success S) prev = some ok ∧
      retryMessage (some chat) (some f) RestOutcome.failure prev = some ko ∧
      ko.started = ok.started ∧
      ok.restCall = { chatId := chat._id, content := f.content, tempId := f._id } ∧
      ko.restCall = ok.restCall ∧
      ok.socketSend = some ok.restCall ∧
      ∀ (i : Nat) (x : Message), prev[i]? = some x →
        (x._id = f._id →
          ok.started[i]? = some { x with status := some "sending" } ∧
          ok.finished[i]? = some { x with status := some "sent", _id := S } ∧
          ko.finished[i]? = some { x with status := some "failed" }) ∧
        (x._id ≠ f._id →
          ok.started[i]? = some x ∧ ok.finished[i]? = some x ∧ ko.finished[i]? = some x) := by
  refine ⟨_, _, rfl, rfl, rfl, rfl, rfl, rfl, ?_⟩
  intro i x hx
  constructor
  · intro hid
    simp [retryUpdate, retrySuccessUpdate, retryFailureUpdate, hx, hid]
  · intro hid
    simp [retryUpdate, retrySuccessUpdate, retryFailureUpdate, hx, hid]

/-! ## The offline scenario: REST response, then echo -/

theorem mkTempId_ne_empty (now : Nat) (rand : String) : mkTempId now rand ≠ "" := by
  intro h
  have hlen := congrArg String.length h
  simp [mkTempId, String.length_append] at hlen
  exact absurd hlen.1.1.1 (by decide)

/-- Entries that do not carry the correlation key and are not optimistic
entries with the content and sender of the message fail the first
`findIndex` test. -/
theorem matchesOptimistic_false_of_fresh (B : JsBuiltins) (n : Message) (c : String)
    (sid : Option String) (prev : List Message)
    (hcontent : n.content = JsVal.str c) (hsender : getSenderId n.sender = sid)
    (hkey : ∀ x ∈ prev, x._id ≠ some (correlationId B n))
    (hother : ∀ x ∈ prev, ¬ (x.isOptimistic = true ∧ x.content = JsVal.str c ∧
      getSenderId x.sender = sid)) :
    ∀ x ∈ prev, matchesOptimistic B n x = false := by
  intro x hx
  have h1 := hkey x hx
  have h2 := hother x hx
  simp only [matchesOptimistic, hcontent, hsender]
  by_cases ho : x.isOptimistic = true
  · by_cases hc : x.content = JsVal.str c
    · have hs : getSenderId x.sender ≠ sid := fun hs => h2 ⟨ho, hc, hs⟩
      simp [h1, hs]
    · have : x.content.strictEq (JsVal.str c) = false := by
        simpa using (JsVal.strictEq_str x.content c).not.mpr hc
      simp [h1, this]
  · simp [h1, ho]

/-- The send without a socket when the fuzzy test has nothing else to
match. A message is sent with no connected socket from a page whose list
holds no entry with the ids of the message and no optimistic
entry with its content and sender. The send appends the optimistic entry
(`sending`) and makes the REST call; the REST success update turns that
entry into the one entry of the message with status `sent`; the echo (server
id `S`, `tempId` `T`, same content and sender) then replaces it in place by
the one entry of the message with status `delivered`. -/
theorem offline_send_rest_then_echo (B : JsBuiltins) (user : User) (s : ChatPage)
    (chat : Conversation) (rand S : String) (e : Message)
    (hsel : s.selectedChat = some chat) (htext : jsTrim s.newMessage ≠ "")
    (hfresh : ∀ x ∈ s.messages, x._id ≠ some (mkTempId s.now rand) ∧ x._id ≠ some S)
    (hother : ∀ x ∈ s.messages, ¬ (x.isOptimistic = true ∧
      x.content = JsVal.str (jsTrim s.newMessage) ∧ getSenderId x.sender = some user._id))
    (hvalid : isValidMessage (some e) = true)
    (heid : e._id = some S) (hetemp : e.tempId = some (mkTempId s.now rand))
    (hecontent : e.content = JsVal.str (jsTrim s.newMessage))
    (hesender : getSenderId e.sender = some user._id) :
    (sendMessage user false SendFault.noFault rand s).messages =
        s.messages ++ [optimisticMessage user (mkTempId s.now rand) (jsTrim s.newMessage) s.now] ∧
      restSuccessUpdate (mkTempId s.now rand) (some S)
          (sendMessage user false SendFault.noFault rand s).messages =
        s.messages ++ [{ optimisticMessage user (mkTempId s.now rand) (jsTrim s.newMessage) s.now
          with status := some "sent", _id := some S }] ∧
      handleNewMessageMessages B user
          (restSuccessUpdate (mkTempId s.now rand) (some S)
            (sendMessage user false SendFault.noFault rand s).messages) (some e) =
        s.messages ++ [{ normalizeMessage B e with
          status := some "delivered", isOptimistic := false }] ∧
      entriesFor (mkTempId s.now rand) S
          (restSuccessUpdate (mkTempId s.now rand) (some S)
            (sendMessage user false SendFault.noFault rand s).messages) = 1 ∧
      entriesFor (mkTempId s.now rand) S
          (handleNewMessageMessages B user
            (restSuccessUpdate (mkTempId s.now rand) (some S)
              (sendMessage user false SendFault.noFault rand s).messages) (some e)) = 1 := by
  have htext' : (jsTrim s.newMessage == "") = false := by simpa using htext
  have hsend : (sendMessage user false SendFault.noFault rand s).messages =
      s.messages ++ [optimisticMessage user (mkTempId s.now rand) (jsTrim s.newMessage) s.now] := by
    simp [sendMessage, hsel, htext']
  have hfreshT : ∀ x ∈ s.messages, x._id ≠ some (mkTempId s.now rand) :=
    fun x hx => (hfresh x hx).1
  have hrest : restSuccessUpdate (mkTempId s.now rand) (some S)
      (sendMessage user false SendFault.noFault rand s).messages =
      s.messages ++ [{ optimisticMessage user (mkTempId s.now rand) (jsTrim s.newMessage) s.now
        with status := some "sent", _id := some S }] := by
    rw [hsend, restSuccessUpdate_append, restSuccessUpdate_fresh _ _ s.messages hfreshT]
    simp [restSuccessUpdate, optimisticMessage]
  have hn_content : (normalizeMessage B e).content = JsVal.str (jsTrim s.newMessage) := by
    simp [normalizeMessage, hecontent, normalizeContent]
  have hn_sender : getSenderId (normalizeMessage B e).sender = some user._id := hesender
  have hcorr : correlationId B (normalizeMessage B e) = mkTempId s.now rand :=
    correlationId_of_tempId B _ _ (by simpa [normalizeMessage] using hetemp)
      (mkTempId_ne_empty s.now rand)
  have hprev := matchesOptimistic_false_of_fresh B (normalizeMessage B e) _ _ s.messages
    hn_content hn_sender (by rw [hcorr]; exact hfreshT) hother
  have hlast : matchesOptimistic B (normalizeMessage B e)
      { optimisticMessage user (mkTempId s.now rand) (jsTrim s.newMessage) s.now
        with status := some "sent", _id := some S } = true := by
    unfold matchesOptimistic
    rw [hn_sender, hn_content]
    simp [optimisticMessage, JsVal.strictEq, getSenderId]
  have hecho : handleNewMessageMessages B user
      (restSuccessUpdate (mkTempId s.now rand) (some S)
        (sendMessage user false SendFault.noFault rand s).messages) (some e) =
      s.messages ++ [{ normalizeMessage B e with
        status := some "delivered", isOptimistic := false }] := by
    rw [hrest, handleNewMessageMessages_valid B user _ e hvalid,
      reconcile_append_last B user _ s.messages _ hprev hlast]
  refine ⟨hsend, hrest, hecho, ?_, ?_⟩
  · rw [hrest]
    exact entriesFor_append_one _ S s.messages _ hfresh (Or.inr rfl)
  · rw [hecho]
    exact entriesFor_append_one _ S s.messages _ hfresh
      (Or.inr (by simp [normalizeMessage, heid]))

theorem offline_send_rest_then_echo_witness :
    handleNewMessageMessages sampleBuiltins alice
        (restSuccessUpdate "temp_0_0.5" (some "s1")
          (sendMessage alice false SendFault.noFault "0.5" composingPage).messages)
        (some echoOfSend) =
      [{ echoOfSend with status := some "delivered", isOptimistic := false }] :=
  (offline_send_rest_then_echo sampleBuiltins alice composingPage sampleConversation "0.5" "s1"
    echoOfSend rfl (by decide) (by decide) (by decide) (by decide) rfl (by decide) (by decide)
    rfl).2.2.1

/-- C13, the code at the failing input. The list already holds an
optimistic entry of the current user with the same text (`temp_1`, an earlier
send, still `sending`). The message is sent with no connected socket; the
REST success update gives its entry the server id `s1` and status `sent`; the
echo (`_id` `s1`, `tempId` `temp_0_0.5`) then overwrites the older entry, the
first one that passes the test of `findIndex`: two entries carry the id `s1`,
one `delivered` and one `sent`. The echo without `tempId` (the REST post
carries none) does the same. -/
theorem offline_send_leaves_two_entries :
    (sendMessage alice false SendFault.noFault "0.5" busyPage).messages =
        [opt1, optimisticMessage alice "temp_0_0.5" "hi" 0] ∧
      (restSuccessUpdate "temp_0_0.5" (some "s1")
          (sendMessage alice false SendFault.noFault "0.5" busyPage).messages).map
          (fun x => (x._id, x.status)) =
        [(some "temp_1", some "sending"), (some "s1", some "sent")] ∧
      (handleNewMessageMessages sampleBuiltins alice
          (restSuccessUpdate "temp_0_0.5" (some "s1")
            (sendMessage alice false SendFault.noFault "0.5" busyPage).messages)
          (some echoOfSend)).map (fun x => (x._id, x.status)) =
        [(some "s1", some "delivered"), (some "s1", some "sent")] ∧
      entriesFor "temp_0_0.5" "s1"
          (handleNewMessageMessages sampleBuiltins alice
            (restSuccessUpdate "temp_0_0.5" (some "s1")
              (sendMessage alice false SendFault.noFault "0.5" busyPage).messages)
            (some echoOfSend)) = 2 ∧
      (handleNewMessageMessages sampleBuiltins alice
          (restSuccessUpdate "temp_0_0.5" (some "s1")
            (sendMessage alice false SendFault.noFault "0.5" busyPage).messages)
          (some echoWithoutTempId)).map (fun x => (x._id, x.status)) =
        [(some "s1", some "delivered"), (some "s1", some "sent")] := by
  decide

/-! ## The fuzzy match of `handleNewMessage` -/

theorem matchesOptimistic_eq_of_no_key (B : JsBuiltins) (n x : Message)
    (h : x._id ≠ some (correlationId B n)) :
    matchesOptimistic B n x = sameContentAndSender n x := by
  simp [matchesOptimistic, sameContentAndSender, h]

/-- C17, amended. For every valid inbound message with no correlation-id
match in the list: an optimistic entry whose content and sender equal those
of the message is replaced (the first such entry), whatever the two
`createdAt` timestamps; and every entry that `handleNewMessage` replaces is
optimistic with the content of the message and either has its sender, or
the message is of the current user and the timestamps differ by less than
5000 ms. -/
theorem handleNewMessage_fuzzy_replacement (B : JsBuiltins) (user : User)
    (prev : List Message) (m : Message)
    (hvalid : isValidMessage (some m) = true)
    (hnoid : ∀ x ∈ prev, x._id ≠ some (correlationId B (normalizeMessage B m))) :
    (∀ (i : Nat) (e : Message), prev[i]? = some e →
        sameContentAndSender (normalizeMessage B m) e = true →
        (∀ (j : Nat) (x : Message), j < i → prev[j]? = some x →
          sameContentAndSender (normalizeMessage B m) x = false) →
        handleNewMessageMessages B user prev (some m) =
          prev.set i { normalizeMessage B m with
            status := some "delivered", isOptimistic := false }) ∧
      (∀ (i : Nat) (x y : Message), prev[i]? = some x →
        (handleNewMessageMessages B user prev (some m))[i]? = some y → y ≠ x →
        x.isOptimistic = true ∧ x.content.strictEq (normalizeMessage B m).content = true ∧
          (getSenderId x.sender = getSenderId m.sender ∨
            (getSenderId m.sender = some user._id ∧
              withinWindow x.createdAt m.createdAt = true))) := by
  constructor
  · intro i e he hmatch hfirst
    have hp : matchesOptimistic B (normalizeMessage B m) e = true := by
      rw [matchesOptimistic_eq_of_no_key B _ e (hnoid e (List.getElem?_mem he))]
      exact hmatch
    have hidx := findIdx?_eq_some_of_first _ prev i e he hp (by
      intro j x hj hx
      rw [matchesOptimistic_eq_of_no_key B _ x (hnoid x (List.getElem?_mem hx))]
      exact hfirst j x hj hx)
    rw [handleNewMessageMessages_valid B user prev m hvalid,
      reconcile_of_findIdx B user _ prev i hidx]
  · intro i x y hx hy hne
    rw [handleNewMessageMessages_valid B user prev m hvalid] at hy
    have hlt : i < prev.length := (List.getElem?_eq_some_iff.mp hx).1
    have hxi : prev[i] = x := (List.getElem?_eq_some_iff.mp hx).2
    rcases reconcile_outcome B user (normalizeMessage B m) prev with
      ⟨k, hk, hr⟩ | ⟨_, hr⟩ | ⟨j, _, hown, hj, hr⟩ | ⟨_, hr⟩
    · rw [hr] at hy
      obtain ⟨hik, _⟩ := changed_entry_of_set prev k i _ x y hx hy hne
      subst hik
      obtain ⟨_, hp, _⟩ := List.findIdx?_eq_some_iff_getElem.mp hk
      rw [hxi, matchesOptimistic_eq_of_no_key B _ x (hnoid x (List.getElem?_mem hx))] at hp
      simp only [sameContentAndSender, Bool.and_eq_true, beq_iff_eq] at hp
      exact ⟨hp.1.1, hp.1.2, Or.inl hp.2⟩
    · rw [hr, hx] at hy
      exact absurd (Option.some.inj hy).symm hne
    · rw [hr] at hy
      obtain ⟨hij, _⟩ := changed_entry_of_set prev j i _ x y hx hy hne
      subst hij
      obtain ⟨_, hp, _⟩ := List.findIdx?_eq_some_iff_getElem.mp hj
      rw [hxi] at hp
      simp only [matchesOwnOptimistic, Bool.and_eq_true] at hp
      exact ⟨hp.1.1, hp.1.2, Or.inr ⟨hown, hp.2⟩⟩
    · rw [hr, List.getElem?_append_left hlt, hx] at hy
      exact absurd (Option.some.inj hy).symm hne

theorem handleNewMessage_fuzzy_replacement_witness :
    handleNewMessageMessages sampleBuiltins alice [fromBob, opt1] (some staleEcho) =
      [fromBob, opt1].set 1 { normalizeMessage sampleBuiltins staleEcho with
        status := some "delivered", isOptimistic := false } :=
  (handleNewMessage_fuzzy_replacement sampleBuiltins alice [fromBob, opt1] staleEcho
    (by decide) (by decide)).1 1 opt1 rfl (by decide)
    (by
      intro j x hj hx
      have h0 : j = 0 := by omega
      subst h0
      simp only [List.getElem?_cons_zero, Option.some.injEq] at hx
      subst hx
      decide)

/-- C17, counterexample. The echo carries no `tempId` and no entry has its
correlation key; the optimistic entry has the content and sender of the echo
and a `createdAt` 99990 ms away, outside the window. It is replaced. -/
theorem handleNewMessage_replaces_outside_window :
    isValidMessage (some staleEcho) = true ∧
      (∀ x ∈ [opt1], x._id ≠ some (correlationId sampleBuiltins
        (normalizeMessage sampleBuiltins staleEcho))) ∧
      sameContentAndSender staleEcho opt1 = true ∧
      withinWindow opt1.createdAt staleEcho.createdAt = false ∧
      handleNewMessageMessages sampleBuiltins alice [opt1] (some staleEcho) =
        [{ staleEcho with status := some "delivered", isOptimistic := false }] := by
  decide

/-! ## The chat list of the reducer -/

theorem map_set_of_eq {α β : Type} (f : α → β) (l : List α) (i : Nat) (x y : α)
    (hy : l[i]? = some y) (hf : f x = f y) : (l.set i x).map f = l.map f := by
  apply List.ext_getElem?
  intro j
  by_cases hij : i = j
  · subst hij
    have hlt : i < l.length := (List.getElem?_eq_some_iff.mp hy).1
    have hyi : l[i] = y := (List.getElem?_eq_some_iff.mp hy).2
    simp [List.getElem?_set, hlt, hf, hyi]
  · simp [List.getElem?_set, hij]

/-- The first chat with a given id, when there is one. -/
theorem findIdx?_chat_of_present (chats : List Chat) (chatId : String)
    (h : ∃ c ∈ chats, c._id = chatId) :
    ∃ (i : Nat) (c : Chat), chats.findIdx? (fun c => c._id == chatId) = some i ∧
      chats[i]? = some c ∧ c._id = chatId ∧
      ∀ (j : Nat) (x : Chat), j < i → chats[j]? = some x → x._id ≠ chatId := by
  obtain ⟨c, hc, hcid⟩ := h
  have hex : ∃ x, x ∈ chats ∧ (fun c : Chat => c._id == chatId) x = true :=
    ⟨c, hc, by simp [hcid]⟩
  have hsome := List.findIdx?_eq_some_of_exists hex
  obtain ⟨hlt, hfound, hbefore⟩ := List.findIdx?_eq_some_iff_getElem.mp hsome
  refine ⟨_, _, hsome, List.getElem?_eq_getElem hlt, by simpa using hfound, ?_⟩
  intro j x hj hx
  have hjlt : j < chats.length := (List.getElem?_eq_some_iff.mp hx).1
  have hxj : chats[j] = x := (List.getElem?_eq_some_iff.mp hx).2
  have := hbefore j hj
  rw [hxj] at this
  simpa using this

theorem findIdx?_chat_of_absent (chats : List Chat) (chatId : String)
    (h : ∀ x ∈ chats, x._id ≠ chatId) :
    chats.findIdx? (fun c => c._id == chatId) = none := by
  rw [List.findIdx?_eq_none_iff]
  intro x hx
  simpa using h x hx

theorem findIdx?_chat_of_first (chats : List Chat) (chatId : String) (i : Nat) (e : Chat)
    (he : chats[i]? = some e) (hid : e._id = chatId)
    (hfirst : ∀ (j : Nat) (x : Chat), j < i → chats[j]? = some x → x._id ≠ chatId) :
    chats.findIdx? (fun c => c._id == chatId) = some i := by
  refine findIdx?_eq_some_of_first _ chats i e he (by simp [hid]) ?_
  intro j x hj hx
  simpa using hfirst j x hj hx

/-- C18, amended. For every state and conversation `c`: `addChat(c)` puts
`c` in front when no chat with the id of `c` is present, and otherwise
overwrites the first chat with that id by `c` itself (nothing of the
existing chat is kept). The shallow merge is what `updateChat(c)` does: it
writes `{ ...existing, ...c }` in place, where a field absent from `c` keeps
its value, and it changes nothing when the id is absent. -/
theorem addChat_inserts_or_overwrites (s : ChatState) (c : Chat) :
    ((∀ x ∈ s.chats, x._id ≠ c._id) →
        (addChat s c).chats = c :: s.chats ∧ (updateChat s c).chats = s.chats) ∧
      (∀ (i : Nat) (e : Chat), s.chats[i]? = some e → e._id = c._id →
        (∀ (j : Nat) (x : Chat), j < i → s.chats[j]? = some x → x._id ≠ c._id) →
        (addChat s c).chats = s.chats.set i c ∧
          (updateChat s c).chats = s.chats.set i (mergeChat e c) ∧
          (c.lastMessage = none → (mergeChat e c).lastMessage = e.lastMessage)) := by
  constructor
  · intro habsent
    have h := findIdx?_chat_of_absent s.chats c._id habsent
    simp [addChat, updateChat, h]
  · intro i e he hid hfirst
    have h := findIdx?_chat_of_first s.chats c._id i e he hid hfirst
    refine ⟨by simp [addChat, h], by simp [updateChat, h, he], ?_⟩
    intro hnone
    simp [mergeChat, hnone]

theorem addChat_inserts_or_overwrites_witness :
    (addChat chatWithHistory { _id := "c2" }).chats = { _id := "c2" } :: chatWithHistory.chats ∧
      (updateChat chatWithHistory { _id := "c2" }).chats = chatWithHistory.chats :=
  (addChat_inserts_or_overwrites chatWithHistory { _id := "c2" }).1 (by decide)

/-- C18, counterexample. The chat `c1` is present with a `lastMessage`;
`addChat` with a chat of the same id that has no `lastMessage` leaves the
chat without `lastMessage`: the field of the existing chat is not kept. -/
theorem addChat_drops_existing_fields :
    chatWithHistory.chats.map (fun c => c.lastMessage.isSome) = [true] ∧
      (addChat chatWithHistory { _id := "c1" }).chats = [{ _id := "c1", lastMessage := none }] ∧
      (updateChat chatWithHistory { _id := "c1" }).chats = chatWithHistory.chats := by
  decide

theorem perm_cons_eraseIdx {α : Type} (a : α) :
    ∀ (l : List α) (i : Nat), l[i]? = some a → (a :: l.eraseIdx i).Perm l := by
  intro l
  induction l with
  | nil => intro i h; simp at h
  | cons b t ih =>
    intro i h
    cases i with
    | zero =>
      simp only [List.getElem?_cons_zero, Option.some.injEq] at h
      subst h
      simp
    | succ k =>
      simp only [List.getElem?_cons_succ] at h
      simp only [List.eraseIdx_cons_succ]
      exact (List.Perm.swap b a _).trans ((ih k h).cons b)

/-- The chats after `addMessage` for a chat that is present: the first chat
with the id, with its new `lastMessage`, followed by the other chats. -/
theorem addMessage_chats (s : ChatState) (chatId : String) (m : Message) (now : Int)
    (i : Nat) (c : Chat) (hidx : s.chats.findIdx? (fun c => c._id == chatId) = some i)
    (hc : s.chats[i]? = some c) :
    (addMessage s chatId m now).chats =
      { _id := c._id
        lastMessage := some
          { content := m.content, sender := m.sender,
            timestamp := if m.createdAtTruthy then m.createdAt else some now } } ::
        s.chats.eraseIdx i := by
  by_cases hact : isActive s.activeChat chatId = true
  · simp [addMessage, hact, hidx, hc]
  · have hact' : isActive s.activeChat chatId = false := by simpa using hact
    simp [addMessage, hact', hidx, hc]

/-- C19. For every state and every `chatId` present in `state.chats`,
`addMessage` moves the (first) chat with that id to index 0 with its
`lastMessage` set from the message (content, sender, and as timestamp
`createdAt` when that field is truthy, the current date otherwise); the
remaining chats follow in their previous relative order; the chat ids of the
result are a permutation of the previous ones and the number of chats is
unchanged. -/
theorem addMessage_moves_chat_to_front (s : ChatState) (chatId : String) (m : Message)
    (now : Int) (hpresent : ∃ c ∈ s.chats, c._id = chatId) :
    ∃ (i : Nat) (c : Chat), s.chats[i]? = some c ∧ c._id = chatId ∧
      (addMessage s chatId m now).chats =
        { _id := c._id
          lastMessage := some
            { content := m.content, sender := m.sender,
              timestamp := if m.createdAtTruthy then m.createdAt else some now } } ::
          s.chats.eraseIdx i ∧
      (s.chats.eraseIdx i).Sublist s.chats ∧
      (chatIds (addMessage s chatId m now)).Perm (chatIds s) ∧
      (addMessage s chatId m now).chats.length = s.chats.length := by
  obtain ⟨i, c, hidx, hc, hcid, _⟩ := findIdx?_chat_of_present s.chats chatId hpresent
  have hchats := addMessage_chats s chatId m now i c hidx hc
  have hperm : (c :: s.chats.eraseIdx i).Perm s.chats := perm_cons_eraseIdx c s.chats i hc
  refine ⟨i, c, hc, hcid, hchats, List.eraseIdx_sublist _ _, ?_, ?_⟩
  · have := hperm.map (fun c : Chat => c._id)
    simpa [chatIds, hchats] using this
  · rw [hchats]
    simpa using hperm.length_eq

theorem addMessage_moves_chat_to_front_witness :
    ∃ (i : Nat) (c : Chat), sampleChatState.chats[i]? = some c ∧ c._id = "c2" ∧
      (addMessage sampleChatState "c2" fromBob 9).chats =
        { _id := c._id
          lastMessage := some
            { content := fromBob.content, sender := fromBob.sender,
              timestamp := if fromBob.createdAtTruthy then fromBob.createdAt else some 9 } } ::
          sampleChatState.chats.eraseIdx i ∧
      (sampleChatState.chats.eraseIdx i).Sublist sampleChatState.chats ∧
      (chatIds (addMessage sampleChatState "c2" fromBob 9)).Perm (chatIds sampleChatState) ∧
      (addMessage sampleChatState "c2" fromBob 9).chats.length = sampleChatState.chats.length :=
  addMessage_moves_chat_to_front sampleChatState "c2" fromBob 9 (by decide)

/-- C20. For every state, `updateChat`, `setActiveChat`, `markChatAsRead`,
`updateUnreadCount`, and `addChat` of a chat whose id is already present
leave the sequence of chat ids of `state.chats` unchanged. -/
theorem chatIds_unchanged (s : ChatState) (c : Chat) (payload : Option Chat)
    (chatId : String) (count : Nat) :
    chatIds (updateChat s c) = chatIds s ∧
      chatIds (setActiveChat s payload) = chatIds s ∧
      chatIds (markChatAsRead s chatId) = chatIds s ∧
      chatIds (updateUnreadCount s chatId count) = chatIds s ∧
      ((∃ x ∈ s.chats, x._id = c._id) → chatIds (addChat s c) = chatIds s) := by
  refine ⟨?_, ?_, ?_, rfl, ?_⟩
  · by_cases hpresent : ∃ x ∈ s.chats, x._id = c._id
    · obtain ⟨i, e, hidx, he, hid, _⟩ := findIdx?_chat_of_present s.chats c._id hpresent
      have hmap := map_set_of_eq (fun c : Chat => c._id) s.chats i (mergeChat e c) e he
        (by simp [mergeChat, hid])
      simpa [chatIds, updateChat, hidx, he] using hmap
    · have habsent : ∀ x ∈ s.chats, x._id ≠ c._id := fun x hx hid => hpresent ⟨x, hx, hid⟩
      simp [chatIds, updateChat, findIdx?_chat_of_absent s.chats c._id habsent]
  · cases payload <;> rfl
  · unfold markChatAsRead
    dsimp only
    split <;> rfl
  · intro hpresent
    obtain ⟨i, e, hidx, he, hid, _⟩ := findIdx?_chat_of_present s.chats c._id hpresent
    have hmap := map_set_of_eq (fun c : Chat => c._id) s.chats i c e he hid.symm
    simpa [chatIds, addChat, hidx] using hmap

theorem chatIds_unchanged_witness :
    chatIds (addChat chatWithHistory { _id := "c1" }) = chatIds chatWithHistory :=
  (chatIds_unchanged chatWithHistory { _id := "c1" } none "c1" 0).2.2.2.2 (by decide)

/-! ## `handleNewMessage`: new messages and messages of other users -/

/-- C25. For every message list and every valid inbound message that
matches no optimistic entry (no entry passes the first `findIndex` test, nor
the second one when the message is of the current user) and whose `_id` is
not in the list, `handleNewMessage` appends it as the last entry: the length
grows by one, all earlier entries are unchanged, and the status is
`received` when the sender is not the current user and `delivered` when it
is. -/
theorem handleNewMessage_appends_new (B : JsBuiltins) (user : User) (prev : List Message)
    (m : Message) (hvalid : isValidMessage (some m) = true)
    (hno : ∀ x ∈ prev, matchesOptimistic B (normalizeMessage B m) x = false)
    (hnoOwn : getSenderId m.sender = some user._id →
      ∀ x ∈ prev, matchesOwnOptimistic (normalizeMessage B m) x = false)
    (hnew : ∀ x ∈ prev, x._id ≠ m._id) :
    (handleNewMessageMessages B user prev (some m)).length = prev.length + 1 ∧
      (∀ (i : Nat) (x : Message), prev[i]? = some x →
        (handleNewMessageMessages B user prev (some m))[i]? = some x) ∧
      (getSenderId m.sender ≠ some user._id →
        handleNewMessageMessages B user prev (some m) =
          prev ++ [{ normalizeMessage B m with status := some "received" }]) ∧
      (getSenderId m.sender = some user._id →
        handleNewMessageMessages B user prev (some m) =
          prev ++ [{ normalizeMessage B m with status := some "delivered" }]) := by
  have h1 : prev.findIdx? (matchesOptimistic B (normalizeMessage B m)) = none :=
    List.findIdx?_eq_none_iff.mpr hno
  have h2 : ¬ prev.any (sameServerId (normalizeMessage B m)) = true := by
    rw [List.any_eq_true]
    rintro ⟨x, hx, hid⟩
    exact hnew x hx (by simpa [sameServerId_eq, normalizeMessage] using hid)
  have hsender : (normalizeMessage B m).sender = m.sender := rfl
  have hres : handleNewMessageMessages B user prev (some m) =
      prev ++ [appendedEntry user (normalizeMessage B m)] := by
    rw [handleNewMessageMessages_valid B user prev m hvalid]
    by_cases hown : getSenderId m.sender = some user._id
    · have h3 : prev.findIdx? (matchesOwnOptimistic (normalizeMessage B m)) = none :=
        List.findIdx?_eq_none_iff.mpr (hnoOwn hown)
      simp [reconcile, h1, h2, hsender, hown, h3, appendedEntry]
    · simp [reconcile, h1, h2, hsender, hown, appendedEntry]
  refine ⟨by simp [hres], ?_, ?_, ?_⟩
  · intro i x hx
    have hlt : i < prev.length := (List.getElem?_eq_some_iff.mp hx).1
    rw [hres, List.getElem?_append_left hlt]
    exact hx
  · intro hown
    rw [hres]
    simp [appendedEntry, hsender, hown]
  · intro hown
    rw [hres]
    simp [appendedEntry, hsender, hown]

theorem handleNewMessage_appends_new_witness :
    handleNewMessageMessages sampleBuiltins alice [fromBob] (some inOrderArrival) =
      [fromBob] ++ [{ normalizeMessage sampleBuiltins inOrderArrival with
        status := some "received" }] :=
  (handleNewMessage_appends_new sampleBuiltins alice [fromBob] inOrderArrival
    (by decide) (by decide) (by decide) (by decide)).2.2.1 (by decide)

/-- C28, amended. For every message list in which no entry has the
correlation key of the message as `_id` and every optimistic entry is the
current user's, and every valid inbound message whose sender is not the
current user, `handleNewMessage` overwrites no entry: every entry of the
previous list is in the result, unchanged and at the same index, and the
result is the previous list or the previous list with the message appended
as `received`. -/
theorem handleNewMessage_foreign_keeps_entries (B : JsBuiltins) (user : User)
    (prev : List Message) (m : Message) (hvalid : isValidMessage (some m) = true)
    (hforeign : getSenderId m.sender ≠ some user._id)
    (hkey : ∀ x ∈ prev, x._id ≠ some (correlationId B (normalizeMessage B m)))
    (hown : ∀ x ∈ prev, x.isOptimistic = true → getSenderId x.sender = some user._id) :
    (∀ (i : Nat) (x : Message), prev[i]? = some x →
        (handleNewMessageMessages B user prev (some m))[i]? = some x) ∧
      (handleNewMessageMessages B user prev (some m) = prev ∨
        handleNewMessageMessages B user prev (some m) =
          prev ++ [{ normalizeMessage B m with status := some "received" }]) := by
  have hsender : (normalizeMessage B m).sender = m.sender := rfl
  have hno : ∀ x ∈ prev, matchesOptimistic B (normalizeMessage B m) x = false := by
    intro x hx
    rw [matchesOptimistic_eq_of_no_key B _ x (hkey x hx)]
    by_cases ho : x.isOptimistic = true
    · have hs : getSenderId x.sender ≠ getSenderId m.sender := by
        rw [hown x hx ho]
        exact fun h => hforeign h.symm
      simp [sameContentAndSender, hsender, hs]
    · simp [sameContentAndSender, ho]
  have h1 : prev.findIdx? (matchesOptimistic B (normalizeMessage B m)) = none :=
    List.findIdx?_eq_none_iff.mpr hno
  have hcases : handleNewMessageMessages B user prev (some m) = prev ∨
      handleNewMessageMessages B user prev (some m) =
        prev ++ [{ normalizeMessage B m with status := some "received" }] := by
    rw [handleNewMessageMessages_valid B user prev m hvalid]
    by_cases h2 : prev.any (sameServerId (normalizeMessage B m)) = true
    · left
      simp [reconcile, h1, h2]
    · right
      simp [reconcile, h1, h2, hsender, hforeign]
  refine ⟨?_, hcases⟩
  intro i x hx
  have hlt : i < prev.length := (List.getElem?_eq_some_iff.mp hx).1
  rcases hcases with h | h
  · rw [h]; exact hx
  · rw [h, List.getElem?_append_left hlt]; exact hx

theorem handleNewMessage_foreign_keeps_entries_witness :
    (∀ (i : Nat) (x : Message), [fromBob, opt2][i]? = some x →
        (handleNewMessageMessages sampleBuiltins alice [fromBob, opt2]
          (some collidingForeign))[i]? = some x) ∧
      (handleNewMessageMessages sampleBuiltins alice [fromBob, opt2] (some collidingForeign) =
          [fromBob, opt2] ∨
        handleNewMessageMessages sampleBuiltins alice [fromBob, opt2] (some collidingForeign) =
          [fromBob, opt2] ++ [{ normalizeMessage sampleBuiltins collidingForeign with
            status := some "received" }]) :=
  handleNewMessage_foreign_keeps_entries sampleBuiltins alice [fromBob, opt2] collidingForeign
    (by decide) (by decide) (by decide) (by decide)

/-- C28, counterexample. The inbound message is valid and of another user;
its `tempId` is the `_id` of an entry of the list. That entry is overwritten
by the message. -/
theorem handleNewMessage_foreign_overwrites :
    isValidMessage (some collidingForeign) = true ∧
      getSenderId collidingForeign.sender ≠ some alice._id ∧
      [opt1][0]? = some opt1 ∧
      (handleNewMessageMessages sampleBuiltins alice [opt1] (some collidingForeign))[0]? =
        some { collidingForeign with status := some "delivered", isOptimistic := false } := by
  decide

/-! ## The error handler of `sendMessage` -/

/-- C29, the code at the failing input. Two optimistic entries are
`sending`; the call that fails is the one that created the second entry.
The error handler marks every entry whose id starts with `temp_` and whose
status is `sending`: the first entry becomes `failed` too. -/
theorem sendError_marks_every_pending_entry :
    [opt1, opt2].map (fun x => (x._id, x.status)) =
        [(some "temp_1", some "sending"), (some "temp_2", some "sending")] ∧
      (sendErrorUpdate [opt1, opt2]).map (fun l => l.map (fun x => (x._id, x.status))) =
        some [(some "temp_1", some "failed"), (some "temp_2", some "failed")] := by
  decide

/-! ## `startChatWithUser` -/

theorem startChatWithUserInsert_of_present (chat : Conversation) (prev : List Conversation)
    (h : ∃ x ∈ prev, x._id = chat._id) : startChatWithUserInsert chat prev = prev := by
  obtain ⟨x, hx, hid⟩ := h
  unfold startChatWithUserInsert
  cases hf : prev.find? (fun conv => conv._id == chat._id) with
  | some _ => rfl
  | none =>
    rw [List.find?_eq_none] at hf
    exact absurd (by simpa using hid) (hf x hx)

theorem startChatWithUserInsert_of_absent (chat : Conversation) (prev : List Conversation)
    (h : ∀ x ∈ prev, x._id ≠ chat._id) : startChatWithUserInsert chat prev = chat :: prev := by
  unfold startChatWithUserInsert
  cases hf : prev.find? (fun conv => conv._id == chat._id) with
  | none => rfl
  | some y =>
    have hy := List.find?_some hf
    have hmem := List.mem_of_find?_eq_some hf
    exact absurd (by simpa using hy) (h y hmem)

/-- C27. For every conversations list with pairwise distinct ids and every
chat of the response of `getOrCreateDirectChat`, the insertion done by
`startChatWithUser` is idempotent, puts the chat in front exactly when its
id is absent (and leaves the list as it is otherwise), and keeps the ids
pairwise distinct. -/
theorem startChatWithUserInsert_idempotent (chat : Conversation) (prev : List Conversation)
    (hdistinct : (prev.map fun conv => conv._id).Nodup) :
    startChatWithUserInsert chat (startChatWithUserInsert chat prev) =
        startChatWithUserInsert chat prev ∧
      ((∀ x ∈ prev, x._id ≠ chat._id) → startChatWithUserInsert chat prev = chat :: prev) ∧
      ((∃ x ∈ prev, x._id = chat._id) → startChatWithUserInsert chat prev = prev) ∧
      ((startChatWithUserInsert chat prev).map fun conv => conv._id).Nodup := by
  refine ⟨?_, startChatWithUserInsert_of_absent chat prev,
    startChatWithUserInsert_of_present chat prev, ?_⟩
  · by_cases h : ∃ x ∈ prev, x._id = chat._id
    · rw [startChatWithUserInsert_of_present chat prev h,
        startChatWithUserInsert_of_present chat prev h]
    · have habsent : ∀ x ∈ prev, x._id ≠ chat._id := fun x hx hid => h ⟨x, hx, hid⟩
      rw [startChatWithUserInsert_of_absent chat prev habsent]
      exact startChatWithUserInsert_of_present chat _ ⟨chat, List.mem_cons_self _ _, rfl⟩
  · by_cases h : ∃ x ∈ prev, x._id = chat._id
    · rw [startChatWithUserInsert_of_present chat prev h]
      exact hdistinct
    · have habsent : ∀ x ∈ prev, x._id ≠ chat._id := fun x hx hid => h ⟨x, hx, hid⟩
      rw [startChatWithUserInsert_of_absent chat prev habsent, List.map_cons, List.nodup_cons]
      refine ⟨?_, hdistinct⟩
      intro hmem
      obtain ⟨x, hx, hid⟩ := List.mem_map.mp hmem
      exact habsent x hx hid

theorem startChatWithUserInsert_idempotent_witness :
    startChatWithUserInsert chatWithBob
        (startChatWithUserInsert chatWithBob [sampleConversation]) =
      startChatWithUserInsert chatWithBob [sampleConversation] ∧
    startChatWithUserInsert chatWithBob [sampleConversation] =
      [chatWithBob, sampleConversation] :=
  ⟨(startChatWithUserInsert_idempotent chatWithBob [sampleConversation] (by decide)).1,
   (startChatWithUserInsert_idempotent chatWithBob [sampleConversation] (by decide)).2.1
     (by decide)⟩

/-! ## Duplicates in the reducer -/

/-- The messages after `addMessage`: the message is pushed when the chat is
the active one, and the list is not written otherwise. -/
theorem addMessage_messages (s : ChatState) (chatId : String) (m : Message) (now : Int) :
    (addMessage s chatId m now).messages =
      if isActive s.activeChat chatId then s.messages ++ [m] else s.messages := by
  unfold addMessage
  cases hact : isActive s.activeChat chatId
  · simp only [Bool.false_eq_true, if_false]
    split
    · rfl
    · split
      · rfl
      · split <;> rfl
  · simp only [if_true]
    split
    · rfl
    · split
      · rfl
      · split <;> rfl

/-- C26, amended. In the chat reducer `addMessage` for the active chat
pushes the message onto `state.messages` whatever its `_id`, and for a chat
that is not the active one it leaves `state.messages` as it is. So for the
active chat no two entries have the same `_id` afterwards exactly when no two
entries had the same `_id` before and the `_id` of the message was not yet in
the list: a message whose `_id` is already there is pushed a second time. -/
theorem addMessage_pushes_whatever_id (s : ChatState) (chatId : String) (m : Message)
    (now : Int) :
    (isActive s.activeChat chatId = true →
        (addMessage s chatId m now).messages = s.messages ++ [m] ∧
        (((addMessage s chatId m now).messages.map fun x => x._id).Nodup ↔
          (s.messages.map fun x => x._id).Nodup ∧
            m._id ∉ s.messages.map fun x => x._id)) ∧
      (isActive s.activeChat chatId = false →
        (addMessage s chatId m now).messages = s.messages) := by
  rw [addMessage_messages]
  constructor
  · intro h
    rw [h, if_pos rfl]
    refine ⟨rfl, ?_⟩
    rw [List.map_append, List.nodup_append]
    simp only [List.map_cons, List.map_nil, List.nodup_cons, List.not_mem_nil,
      not_false_eq_true, List.nodup_nil, and_self, true_and, List.disjoint_singleton]
  · intro h
    rw [h]
    rfl

theorem addMessage_pushes_whatever_id_witness :
    (addMessage activeChatState "c1" inOrderArrival 9).messages =
        activeChatState.messages ++ [inOrderArrival] ∧
      ((addMessage activeChatState "c1" inOrderArrival 9).messages.map fun x => x._id).Nodup ∧
      (addMessage activeChatState "c2" inOrderArrival 9).messages = activeChatState.messages :=
  ⟨((addMessage_pushes_whatever_id activeChatState "c1" inOrderArrival 9).1 (by decide)).1,
   ((addMessage_pushes_whatever_id activeChatState "c1" inOrderArrival 9).1 (by decide)).2.mpr
     (by decide),
   (addMessage_pushes_whatever_id activeChatState "c2" inOrderArrival 9).2 (by decide)⟩

/-- C26, counterexample. The active chat `c1` shows the message `s0`, and
no two entries have the same `_id`; `addMessage` for `c1` with the same
message (a second delivery) pushes it again: `state.messages` is changed and
holds two entries with the `_id` `s0`. -/
theorem addMessage_pushes_duplicate :
    isActive activeChatState.activeChat "c1" = true ∧
      (activeChatState.messages.map fun x => x._id) = [some "s0"] ∧
      ((addMessage activeChatState "c1" fromBob 9).messages.map fun x => x._id) =
        [some "s0", some "s0"] := by
  decide

/-! ## Typing users and the switch of conversation -/

/-- C23, amended. When the active conversation changes, the typing-user
set is left as it was before the switch: `selectChat` in the chat page and
`setActiveChat` in the chat reducer do not write `typingUsers`, whatever the
conversation selected and whatever the set holds. -/
theorem typingUsers_kept_on_switch (B : JsBuiltins) (chat : Option Conversation)
    (loaded : Option (List Message)) (marked : Bool) (s : ChatPage) (state : ChatState)
    (payload : Option Chat) :
    (selectChat B chat loaded marked s).typingUsers = s.typingUsers ∧
      (setActiveChat state payload).typingUsers = state.typingUsers := by
  constructor
  · unfold selectChat
    cases chat with
    | none => rfl
    | some c =>
      dsimp only
      split
      · rfl
      · cases loaded with
        | none => rfl
        | some messages => cases marked <;> rfl
  · cases payload <;> rfl

/-- C23, counterexample. Bob is typing in the selected conversation `c1`;
the user selects the conversation `c2`, and `setActiveChat` is dispatched
with `c2` in the reducer. The typing-user sets still hold Bob. -/
theorem typingUsers_survive_switch :
    pageWithTyping.typingUsers = ["u2"] ∧
      (selectChat sampleBuiltins (some chatWithBob) (some []) true pageWithTyping).selectedChat =
        some chatWithBob ∧
      (selectChat sampleBuiltins (some chatWithBob) (some []) true pageWithTyping).typingUsers =
        ["u2"] ∧
      (setActiveChat activeChatState (some { _id := "c2" })).typingUsers =
        [("u2", some "Bob")] := by
  decide

/-! ## socketService: emitting without a connection -/

/-- C24, amended. When no socket object exists (never connected, or after
`disconnectSocket`), `sendMessage`, `joinChat`, `startTyping` and
`stopTyping` of socketService call nothing and leave the transport as it
is; when a socket object exists, connected or not, each of them calls
`socket.emit` once with its event. -/
theorem socketService_emit_guard (t : Transport) (data : Delivery) (chatId : String) :
    (t.socket = none →
        socketService.sendMessage data t = t ∧ socketService.joinChat chatId t = t ∧
        socketService.startTyping chatId t = t ∧ socketService.stopTyping chatId t = t) ∧
      (socketService.disconnectSocket t).socket = none ∧
      (socketService.disconnectSocket t).calls = t.calls ∧
      (t.socket.isSome = true →
        (socketService.sendMessage data t).calls =
          t.calls ++ [{ event := "send_message", payload := EmitPayload.message data }] ∧
        (socketService.joinChat chatId t).calls =
          t.calls ++ [{ event := "join_chat", payload := EmitPayload.chatId chatId }] ∧
        (socketService.startTyping chatId t).calls =
          t.calls ++ [{ event := "typing_start", payload := EmitPayload.chatObject chatId }] ∧
        (socketService.stopTyping chatId t).calls =
          t.calls ++ [{ event := "typing_stop", payload := EmitPayload.chatObject chatId }]) := by
  refine ⟨?_, ?_, ?_, ?_⟩
  · intro h
    simp [socketService.sendMessage, socketService.joinChat, socketService.startTyping,
      socketService.stopTyping, socketService.emit, h]
  · unfold socketService.disconnectSocket
    split <;> simp_all
  · unfold socketService.disconnectSocket
    split <;> rfl
  · intro h
    obtain ⟨c, hc⟩ := Option.isSome_iff_exists.mp h
    simp [socketService.sendMessage, socketService.joinChat, socketService.startTyping,
      socketService.stopTyping, socketService.emit, hc]

theorem socketService_emit_guard_witness :
    socketService.sendMessage { chatId := "c1", content := JsVal.str "hi", tempId := none }
        (socketService.disconnectSocket disconnectedTransport) =
      socketService.disconnectSocket disconnectedTransport :=
  ((socketService_emit_guard (socketService.disconnectSocket disconnectedTransport)
    { chatId := "c1", content := JsVal.str "hi", tempId := none } "c1").1 (by decide)).1

/-- C24, counterexample. A socket object exists and is disconnected;
`joinChat` and `startTyping` call `socket.emit`. -/
theorem socketService_emits_when_disconnected :
    disconnectedTransport.socket = some false ∧ disconnectedTransport.calls = [] ∧
      (socketService.joinChat "c1" disconnectedTransport).calls =
        [{ event := "join_chat", payload := EmitPayload.chatId "c1" }] ∧
      (socketService.startTyping "c1" disconnectedTransport).calls =
        [{ event := "typing_start", payload := EmitPayload.chatObject "c1" }] := by
  decide

/-! ## `filteredConversations` with an empty search term -/

theorem filterThrowing_of_all {α : Type} (p : α → Option Bool) :
    ∀ l : List α, (∀ x ∈ l, p x = some true) → filterThrowing p l = some l := by
  intro l
  induction l with
  | nil => intro _; rfl
  | cons a t ih =>
    intro h
    have ha : p a = some true := h a (List.mem_cons_self _ _)
    have ht := ih fun x hx => h x (List.mem_cons_of_mem _ hx)
    simp [filterThrowing, ha, ht]

theorem filterThrowing_kept {α : Type} (p : α → Option Bool) :
    ∀ (l out : List α), filterThrowing p l = some out → ∀ x ∈ out, p x = some true := by
  intro l
  induction l with
  | nil =>
    intro out h x hx
    simp [filterThrowing] at h
    subst h
    simp at hx
  | cons a t ih =>
    intro out h x hx
    cases hpa : p a with
    | none => simp [filterThrowing, hpa] at h
    | some keep =>
      cases hrest : filterThrowing p t with
      | none => simp [filterThrowing, hpa, hrest] at h
      | some rest =>
        simp only [filterThrowing, hpa, hrest, Option.some.injEq] at h
        subst h
        cases keep with
        | false => exact ih rest hrest x (by simpa using hx)
        | true =>
          simp only [if_true, List.mem_cons] at hx
          rcases hx with hx | hx
          · rw [hx]; exact hpa
          · exact ih rest hrest x hx

theorem jsIncludes_empty (v : String) : jsIncludes v "" = true := by
  simp [jsIncludes]

theorem participants_isSome_of_getOtherUser (user : User) (conv : Conversation) (u : ChatUser)
    (h : getOtherUser user conv = some u) : conv.participants.isNone = false := by
  unfold getOtherUser at h
  cases hp : conv.participants with
  | none => simp [hp] at h
  | some ps => rfl

/-- C21, amended. With an empty search term `filteredConversations` equals
the conversations list when every conversation has an `_id` and another user
(a participant whose populated user has an `_id` that is not the current
user's) with a name. Whatever the search term, a conversation without such
another user is not in the result, and neither is a conversation without an
`_id` or without a participants array: every conversation of the result has
all three. -/
theorem filteredConversations_empty_query (L : StringBuiltins) (user : User)
    (conversations : List Conversation) (hlower : L.toLowerCase "" = "")
    (hnamed : ∀ conv ∈ conversations, conv._id ≠ "" ∧
      ∃ (u : ChatUser) (n : String), getOtherUser user conv = some u ∧ u.name = some n) :
    filteredConversations L user "" conversations = some conversations ∧
      ∀ (searchQuery : String) (out : List Conversation),
        filteredConversations L user searchQuery conversations = some out →
        ∀ conv ∈ out, conv._id ≠ "" ∧ conv.participants.isSome = true ∧
          (getOtherUser user conv).isSome = true := by
  constructor
  · apply filterThrowing_of_all
    intro conv hconv
    obtain ⟨hid, u, n, hu, hn⟩ := hnamed conv hconv
    have hps := participants_isSome_of_getOtherUser user conv u hu
    simp [keepsConversation, hid, hps, hu, matchesSearch, fieldIncludes, hn, hlower,
      jsIncludes_empty]
  · intro searchQuery out hout conv hconv
    have hkept := filterThrowing_kept _ conversations out hout conv hconv
    unfold keepsConversation at hkept
    split at hkept
    · simp at hkept
    · rename_i hguard
      have hguard' : ¬ conv._id = "" ∧ ¬ conv.participants = none := by
        simpa [Option.isNone_iff_eq_none] using hguard
      refine ⟨hguard'.1, ?_, ?_⟩
      · cases hp : conv.participants with
        | none => exact absurd hp hguard'.2
        | some ps => rfl
      · cases hu : getOtherUser user conv with
        | none => simp [hu] at hkept
        | some u => rfl

theorem filteredConversations_empty_query_witness :
    filteredConversations sampleStrings alice "" [chatWithBob] = some [chatWithBob] :=
  (filteredConversations_empty_query sampleStrings alice [chatWithBob] rfl (by
    intro conv hconv
    simp only [List.mem_singleton] at hconv
    subst hconv
    exact ⟨by decide, { _id := some "u2", name := some "Bob" }, "Bob", by decide, rfl⟩)).1

/-- C21, counterexample. The search term is empty; the list holds a
conversation whose only participant is the current user. That conversation
is filtered out. -/
theorem filteredConversations_drops_without_other_user :
    filteredConversations sampleStrings alice "" [chatWithBob, chatWithSelf] =
        some [chatWithBob] ∧
      filteredConversations sampleStrings alice "" [chatWithBob, chatWithSelf] ≠
        some [chatWithBob, chatWithSelf] := by
  decide

/-! ## The typing indicator -/

/-- C22, the code at the failing input. From rest, with a chat selected:
a single keystroke calls `startTyping`, and after one second without input
the timer fires with the `isTyping` its closure captured, which is false, so
`stopTyping` is not called and `isTyping` stays true. With a second
keystroke half a second after the first, the timer that fires is the one of
the second keystroke and `stopTyping` is called once. -/
theorem single_keystroke_never_stops_typing :
    (idle 1000 (handleMessageInput "h" idleComposer)).calls = [TypingCall.startTyping "c1"] ∧
      (idle 1000 (handleMessageInput "h" idleComposer)).typingTimeout = none ∧
      (idle 1000 (handleMessageInput "h" idleComposer)).isTyping = true ∧
      (idle 1000 (handleMessageInput "hi" (idle 500 (handleMessageInput "h" idleComposer)))).calls
        = [TypingCall.startTyping "c1", TypingCall.stopTyping "c1"] := by
  decide

/-! ## The cart totals -/

theorem cartTotalsOk_withTotals {N : Type} (A : NumberOps N) (s : CartState N) :
    CartTotalsOk A (withTotals A s) := by
  constructor
  · simp [withTotals, calculateTotals, sumOver, List.foldl_map]
  · simp [withTotals, calculateTotals, sumOver, List.foldl_map]

/-- For the integers `sumOver` is the sum of the list. -/
theorem sumOver_intOps (xs : List Int) : sumOver intOps xs = xs.sum := by
  have h : ∀ (l : List Int) (a : Int), l.foldl intOps.add a = a + l.sum := by
    intro l
    induction l with
    | nil => intro a; simp
    | cons x t ih =>
      intro a
      simp only [List.foldl_cons, List.sum_cons, ih]
      simp only [intOps]
      omega
  rw [sumOver, h]
  simp [intOps]

/-- C30. Whatever the arithmetic of the numbers: after `addToCart` on the
path that changes the items (the role is not `seller` and the item is
valid), whenever the reducer returns, after `updateQuantity` of an item that
is in the cart, after `removeFromCart` and after `clearCart`,
`state.totalQuantity` is the sum of `item.quantity` and `state.totalAmount`
the sum of `item.price * item.quantity` over `state.items`. On that path
`addToCart` returns when the product is already in the cart or has a
`seller`, and throws when it is not in the cart and has none; the state of
the store is then the previous one. Each of the four reducers, on every
path, the one that throws included, keeps the invariant from a state that
satisfies it. -/
theorem cart_totals_invariant {N : Type} (A : NumberOps N) (s : CartState N)
    (product : Option (Product N)) (quantity : N) (userRole : Option String)
    (productId : String) :
    (userRole ≠ some "seller" → (validateCartItem A product quantity).isValid = true →
        ∀ s1, addToCart A s product quantity userRole = some s1 → CartTotalsOk A s1) ∧
      (userRole ≠ some "seller" → (validateCartItem A product quantity).isValid = true →
        ∀ p, product = some p →
          ((addToCart A s product quantity userRole).isSome = true ↔
            (p.seller.isSome = true ∨ ∃ item ∈ s.items, item.productId = p._id))) ∧
      ((∃ item ∈ s.items, item.productId = productId) →
        CartTotalsOk A (updateQuantity A s productId quantity)) ∧
      CartTotalsOk A (removeFromCart A s productId) ∧
      CartTotalsOk A (clearCart A s) ∧
      (CartTotalsOk A s →
        CartTotalsOk A (afterAddToCart A s product quantity userRole) ∧
        CartTotalsOk A (updateQuantity A s productId quantity)) := by
  have hadd : userRole ≠ some "seller" → (validateCartItem A product quantity).isValid = true →
      ∀ s1, addToCart A s product quantity userRole = some s1 → CartTotalsOk A s1 := by
    intro hrole hvalid s1 hs1
    have hrole' : (userRole == some "seller") = false := by simpa using hrole
    cases product with
    | none => simp [validateCartItem] at hvalid
    | some p =>
      simp only [addToCart, hrole', Bool.false_eq_true, if_false, hvalid] at hs1
      cases hidx : s.items.findIdx? (fun item => item.productId == p._id) with
      | some i =>
        simp only [hidx, Option.some.injEq] at hs1
        rw [← hs1]
        exact cartTotalsOk_withTotals A _
      | none =>
        cases hseller : p.seller with
        | none => simp [hidx, hseller] at hs1
        | some seller =>
          simp only [hidx, hseller, Option.some.injEq] at hs1
          rw [← hs1]
          exact cartTotalsOk_withTotals A _
  have hupd : ∀ i, s.items.findIdx? (fun item => item.productId == productId) = some i →
      CartTotalsOk A (updateQuantity A s productId quantity) := by
    intro i hi
    simp only [updateQuantity, hi]
    exact cartTotalsOk_withTotals A _
  refine ⟨hadd, ?_, ?_, cartTotalsOk_withTotals A _, ?_, ?_⟩
  · intro hrole hvalid p hp
    subst hp
    have hrole' : (userRole == some "seller") = false := by simpa using hrole
    simp only [addToCart, hrole', Bool.false_eq_true, if_false, hvalid]
    cases hidx : s.items.findIdx? (fun item => item.productId == p._id) with
    | some i =>
      obtain ⟨hlt, hfound, _⟩ := List.findIdx?_eq_some_iff_getElem.mp hidx
      simp only [Option.isSome_some, true_iff]
      exact Or.inr ⟨s.items[i], List.getElem_mem _, by simpa using hfound⟩
    | none =>
      have hno : ∀ item ∈ s.items, ¬ item.productId = p._id := by
        simpa using hidx
      cases hseller : p.seller with
      | none =>
        simp only [Option.isSome_none, Bool.false_eq_true, false_or, false_iff, not_exists,
          not_and]
        exact hno
      | some seller => simp
  · rintro ⟨item, hitem, hid⟩
    have hex : ∃ x, x ∈ s.items ∧
        (fun item : CartItem N => item.productId == productId) x = true :=
      ⟨item, hitem, by simp [hid]⟩
    exact hupd _ (List.findIdx?_eq_some_of_exists hex)
  · constructor <;> simp [clearCart, sumOver]
  · intro hok
    constructor
    · unfold afterAddToCart
      cases hres : addToCart A s product quantity userRole with
      | none => exact hok
      | some s1 =>
        simp only [Option.getD_some]
        by_cases hrole : userRole = some "seller"
        · simp only [addToCart, hrole, beq_self_eq_true, if_true, Option.some.injEq] at hres
          rw [← hres]
          exact hok
        · cases hvalid : (validateCartItem A product quantity).isValid with
          | true => exact hadd hrole hvalid s1 hres
          | false =>
            have hrole' : (userRole == some "seller") = false := by simpa using hrole
            simp only [addToCart, hrole', Bool.false_eq_true, if_false, hvalid,
              Option.some.injEq] at hres
            rw [← hres]
            exact hok
    · cases hi : s.items.findIdx? (fun item => item.productId == productId) with
      | some i => exact hupd i hi
      | none =>
        have : updateQuantity A s productId quantity = s := by simp [updateQuantity, hi]
        rw [this]
        exact hok

theorem cart_totals_invariant_witness :
    CartTotalsOk intOps (afterAddToCart intOps sampleCart (some sampleJam) 2 (some "buyer")) ∧
      (addToCart intOps sampleCart (some sampleJam) 2 (some "buyer")).isSome = true ∧
      (addToCart intOps sampleCart (some sellerlessJam) 2 (some "buyer")).isSome = false ∧
      CartTotalsOk intOps (updateQuantity intOps sampleCart "p1" 4) ∧
      CartTotalsOk intOps (updateQuantity intOps sampleCart "p9" 4) :=
  ⟨((cart_totals_invariant intOps sampleCart (some sampleJam) 2 (some "buyer") "p1").2.2.2.2.2
      ⟨rfl, rfl⟩).1,
   ((cart_totals_invariant intOps sampleCart (some sampleJam) 2 (some "buyer") "p1").2.1
      (by decide) (by decide) sampleJam rfl).mpr (Or.inl (by decide)),
   by
    have h := (cart_totals_invariant intOps sampleCart (some sellerlessJam) 2 (some "buyer")
      "p1").2.1 (by decide) (by decide) sellerlessJam rfl
    cases hres : (addToCart intOps sampleCart (some sellerlessJam) 2 (some "buyer")).isSome with
    | false => rfl
    | true =>
      have hor := h.mp hres
      revert hor
      decide,
   (cart_totals_invariant intOps sampleCart (some sampleProduct) 4 (some "buyer") "p1").2.2.1
      ⟨_, List.mem_cons_self _ _, rfl⟩,
   ((cart_totals_invariant intOps sampleCart (some sampleProduct) 4 (some "buyer")
      "p9").2.2.2.2.2 ⟨rfl, rfl⟩).2⟩

/-! ## The typing indicator: bursts of two or more keystrokes -/

theorem midBurst_first_keystroke (s : Composer) (chatId value : String)
    (hrest : s.isTyping = false) (hsel : s.selectedChat = some chatId) :
    MidBurst s.calls chatId false (handleMessageInput value s) := by
  simp [MidBurst, handleMessageInput, hrest, hsel]

theorem midBurst_next_keystroke (before : List TypingCall) (chatId value : String)
    (captured : Bool) (pause : Nat) (s : Composer) (h : MidBurst before chatId captured s)
    (hpause : pause < 1000) :
    MidBurst before chatId true (handleMessageInput value (idle pause s)) := by
  obtain ⟨htyping, hsel, htimer, hcalls⟩ := h
  have hnot : ¬ s.now + 1000 ≤ s.now + pause := by omega
  have hidle : idle pause s = { s with now := s.now + pause } := by
    simp [idle, htimer, hnot]
  rw [hidle]
  simp [MidBurst, handleMessageInput, htyping, hsel, hcalls]

theorem midBurst_typeBurst (before : List TypingCall) (chatId : String) :
    ∀ (rest : List (Nat × String)) (captured : Bool) (s : Composer),
      MidBurst before chatId captured s → rest ≠ [] → (∀ k ∈ rest, k.1 < 1000) →
      MidBurst before chatId true (typeBurst s rest) := by
  intro rest
  induction rest with
  | nil => intro _ _ _ hne _; exact absurd rfl hne
  | cons k rest ih =>
    intro captured s h _ hpauses
    obtain ⟨pause, value⟩ := k
    have hstep := midBurst_next_keystroke before chatId value captured pause s h
      (hpauses (pause, value) (List.mem_cons_self _ _))
    cases rest with
    | nil => exact hstep
    | cons k' rest' =>
      exact ih true _ hstep (by simp) fun k hk => hpauses k (List.mem_cons_of_mem _ hk)

/-- A burst of two or more keystrokes from rest, each less than one second
after the previous one, followed by one second without input: `startTyping`
is called once and `stopTyping` once. -/
theorem burst_of_two_or_more (s : Composer) (chatId value : String)
    (rest : List (Nat × String)) (hrest : s.isTyping = false)
    (hsel : s.selectedChat = some chatId) (hmore : rest ≠ [])
    (hpauses : ∀ k ∈ rest, k.1 < 1000) :
    (idle 1000 (typeBurst (handleMessageInput value s) rest)).calls =
        s.calls ++ [TypingCall.startTyping chatId, TypingCall.stopTyping chatId] ∧
      (idle 1000 (typeBurst (handleMessageInput value s) rest)).isTyping = false := by
  obtain ⟨_, _, htimer, hcalls⟩ := midBurst_typeBurst s.calls chatId rest false _
    (midBurst_first_keystroke s chatId value hrest hsel) hmore hpauses
  simp [idle, htimer, hcalls]

end LocalTreasures
